import Mathlib

/-!
Verification development for the entity-hierarchy / transform subsystem of HL_Tools
(`src/tools/hlmv/game/components/Entities.hpp`) and the command-line configuration
loader (`src/stdlib/settings/CCmdLineConfig.cpp`).

The registry is modelled as finite association lists keyed by entity identifier
(`Nat`); `entt::entity` values, which may be the distinguished `entt::null`, are
modelled as `Option Nat` with `none` playing the role of `entt::null`.  A component
access that violates its precondition (`registry.get` on a missing component or on
the null entity) makes the modelled operation return `none`: the C++ original
asserts / is undefined there.  `registry.remove` is modelled as remove-if-present.
-/

set_option autoImplicit false

/-- An `entt::entity` value: either a live identifier or `entt::null` (`none`). -/
abbrev Ent := Option Nat

/-- Association-list lookup (first binding wins; inserts keep keys unique). -/
def alookup {β : Type} : List (Nat × β) → Nat → Option β
  | [], _ => none
  | (k, v) :: rest, e => if k = e then some v else alookup rest e

/-- Association-list removal of the binding for `k`. -/
def aerase {β : Type} : List (Nat × β) → Nat → List (Nat × β)
  | [], _ => []
  | (a, b) :: rest, k => if a = k then aerase rest k else (a, b) :: aerase rest k

/-- Association-list update: bind `k` to `v` (a map update; binding order is
unobservable, every read goes through `alookup`). -/
def ainsert {β : Type} (m : List (Nat × β)) (k : Nat) (v : β) : List (Nat × β) :=
  (k, v) :: aerase m k

/-- `game::components::Hierarchy`: intrusive parent/sibling links. -/
structure Hierarchy where
  Parent : Ent := none
  Previous : Ent := none
  Next : Ent := none
  FirstChild : Ent := none
deriving DecidableEq, Repr

/-- A 3-component vector with exact (rational) coordinates, standing in for
`glm::vec3` where only the additive structure matters. -/
abbrev Vec3 := Rat × Rat × Rat

/-- The slice of the `entt::registry` the hierarchy subsystem touches:
the `Hierarchy` table, the set of entities carrying `LocalToParent`
(only presence matters to the claims), and the `RotationEulerXYZ` table. -/
structure Registry where
  hier : List (Nat × Hierarchy)
  ltp : List Nat
  euler : List (Nat × Vec3)
deriving DecidableEq, Repr

def Registry.setHier (s : Registry) (n : Nat) (h : Hierarchy) : Registry :=
  { s with hier := ainsert s.hier n h }

def Registry.eraseHier (s : Registry) (n : Nat) : Registry :=
  { s with hier := aerase s.hier n }

def Registry.addLtp (s : Registry) (n : Nat) : Registry :=
  { s with ltp := if n ∈ s.ltp then s.ltp else n :: s.ltp }

/-- `registry.remove<LocalToParent>`, modelled as remove-if-present. -/
def Registry.removeLtp (s : Registry) (n : Nat) : Registry :=
  { s with ltp := s.ltp.filter (fun x => x ≠ n) }

/-- `game::components::GetParent`: the `Parent` field if a `Hierarchy`
component exists, else the null entity. -/
def GetParent (s : Registry) (entity : Nat) : Ent :=
  match alookup s.hier entity with
  | some h => h.Parent
  | none => none

/-- The ancestor walk of `SetParent`'s cycle guard, starting from the
`Hierarchy` component of the prospective parent.  Returns `some true` if
`entity` is found among the ancestors, `some false` if the walk reaches a
root, and `none` if an ancestor misses its `Hierarchy` component or the
fuel runs out (the C++ loop would trap or diverge there). -/
def ancestorWalk (s : Registry) (entity : Nat) : Hierarchy → Nat → Option Bool
  | h, fuel =>
    match h.Parent with
    | none => some false
    | some p =>
      if p = entity then some true
      else
        match fuel with
        | 0 => none
        | fuel' + 1 =>
          match alookup s.hier p with
          | none => none
          | some h' => ancestorWalk s entity h' fuel'

/-- The cycle guard of `SetParent`: skipped entirely when the prospective
parent is null or has no `Hierarchy` component. -/
def cycleCheck (s : Registry) (entity : Nat) (parent : Ent) (fuel : Nat) : Option Bool :=
  match parent with
  | none => some false
  | some p =>
    match alookup s.hier p with
    | none => some false
    | some h => ancestorWalk s entity h fuel

/-- Detach, step 1: `if (hierarchy->Previous != null) previousHierarchy.Next = hierarchy->Next`. -/
def patchPrevious (s : Registry) (entity : Nat) : Option Registry :=
  match alookup s.hier entity with
  | none => none
  | some h =>
    match h.Previous with
    | none => some s
    | some pr =>
      match alookup s.hier pr with
      | none => none
      | some ph => some (s.setHier pr { ph with Next := h.Next })

/-- Detach, step 2: `if (hierarchy->Next != null) nextHierarchy.Previous = hierarchy->Previous`. -/
def patchNext (s : Registry) (entity : Nat) : Option Registry :=
  match alookup s.hier entity with
  | none => none
  | some h =>
    match h.Next with
    | none => some s
    | some nx =>
      match alookup s.hier nx with
      | none => none
      | some nh => some (s.setHier nx { nh with Previous := h.Previous })

/-- Detach, step 3: the old-parent block.  The C++ runs
`registry.get<Hierarchy>(hierarchy->Parent)` without checking `Parent` for
null, so a null `Parent` is a precondition violation (`none`).  After
unhooking `FirstChild`, the old parent's `Hierarchy` and `LocalToParent`
are removed when it has neither children nor a parent (cascading cleanup). -/
def patchParent (s : Registry) (entity : Nat) : Option Registry :=
  match alookup s.hier entity with
  | none => none
  | some h =>
    match h.Parent with
    | none => none
    | some par =>
      match alookup s.hier par with
      | none => none
      | some ph =>
        let ph1 := if ph.FirstChild = some entity then { ph with FirstChild := h.Next } else ph
        let s1 := s.setHier par ph1
        if ph1.FirstChild = none ∧ ph1.Parent = none then
          some ((s1.eraseHier par).removeLtp par)
        else
          some s1

/-- Detach, step 4: `hierarchy->Parent = Previous = Next = entt::null`. -/
def clearLinks (s : Registry) (entity : Nat) : Option Registry :=
  match alookup s.hier entity with
  | none => none
  | some h =>
    some (s.setHier entity { h with Parent := none, Previous := none, Next := none })

/-- The whole detach phase of `SetParent` (runs when `entity` has a
`Hierarchy` component whose `Parent` differs from the new parent). -/
def detachPhase (s : Registry) (entity : Nat) : Option Registry :=
  (patchPrevious s entity).bind fun s1 =>
    (patchNext s1 entity).bind fun s2 =>
      (patchParent s2 entity).bind fun s3 => clearLinks s3 entity

/-- The splice step of the attach phase: after the parent's `Hierarchy` is
ensured (`children` is the live reference `get_or_assign<Hierarchy>(parent)`
returned), insert `entity` at the head of the parent's child list, patching
the old first child's `Previous` link. -/
def attachSplice (s4 : Registry) (entity p : Nat) : Option Registry :=
  match alookup s4.hier p with
  | none => none
  | some children =>
    match children.FirstChild with
    | none => some (s4.setHier p { children with FirstChild := some entity })
    | some fc =>
      match alookup s4.hier fc with
      | none => none
      | some nh =>
        let s5 := s4.setHier fc { nh with Previous := some entity }
        match alookup s5.hier entity with
        | none => none
        | some h2 =>
          let s6 := s5.setHier entity { h2 with Next := some fc, Previous := none }
          match alookup s6.hier p with
          | none => none
          | some ch2 => some (s6.setHier p { ch2 with FirstChild := some entity })

/-- The tail of the attach phase, after `entity` is guaranteed a `Hierarchy`
and a `LocalToParent` component: set `hierarchy->Parent`, get-or-assign the
parent's `Hierarchy`, then splice `entity` into the child list. -/
def attachCore (s2 : Registry) (entity p : Nat) : Option Registry :=
  match alookup s2.hier entity with
  | none => none
  | some h =>
    let s3 := s2.setHier entity { h with Parent := some p }
    let s4 := match alookup s3.hier p with
              | none => s3.setHier p {}
              | some _ => s3
    attachSplice s4 entity p

/-- The attach phase of `SetParent` (runs when the new parent is non-null):
ensure `entity` has `Hierarchy` and `LocalToParent`, then run `attachCore`. -/
def attachPhase (s : Registry) (entity p : Nat) : Option Registry :=
  let s1 := match alookup s.hier entity with
            | none => s.setHier entity {}
            | some _ => s
  attachCore (s1.addLtp entity) entity p

/-- The clearing branch of `SetParent` (new parent is null and `entity` had a
`Hierarchy` component): remove `LocalToParent`, and remove `Hierarchy` too
when the entity has no children. -/
def clearingPhase (s : Registry) (entity : Nat) : Option Registry :=
  let s1 := s.removeLtp entity
  match alookup s1.hier entity with
  | none => none
  | some h => if h.FirstChild = none then some (s1.eraseHier entity) else some s1

/-- `game::components::SetParent`, transcribed control-flow-faithfully from
`Entities.hpp`.  `fuel` bounds the cycle-guard ancestor walk (the C++ loop's
termination rests on the acyclicity invariant); `none` models an assertion
failure / undefined behavior inside the call. -/
def SetParent (s : Registry) (entity : Nat) (parent : Ent) (fuel : Nat) : Option Registry :=
  if some entity = parent then some s
  else
    match cycleCheck s entity parent fuel with
    | none => none
    | some true => some s
    | some false =>
      match alookup s.hier entity with
      | some h =>
        if h.Parent = parent then some s
        else
          match detachPhase s entity with
          | none => none
          | some s1 =>
            match parent with
            | some p => attachPhase s1 entity p
            | none => clearingPhase s1 entity
      | none =>
        match parent with
        | some p => attachPhase s entity p
        | none => some s

/-- `game::components::ClearParent`. -/
def ClearParent (s : Registry) (entity : Nat) (fuel : Nat) : Option Registry :=
  SetParent s entity none fuel

/-- An edit of the hierarchy: one `SetParent` or `ClearParent` call. -/
inductive HierOp where
  | set (entity : Nat) (parent : Ent)
  | clear (entity : Nat)
deriving DecidableEq, Repr

def applyOp (s : Registry) (fuel : Nat) : HierOp → Option Registry
  | .set e p => SetParent s e p fuel
  | .clear e => ClearParent s e fuel

/-- Run a sequence of hierarchy edits, failing as soon as one call fails. -/
def runOps (s : Registry) (fuel : Nat) : List HierOp → Option Registry
  | [] => some s
  | op :: rest =>
    match applyOp s fuel op with
    | none => none
    | some s' => runOps s' fuel rest

/-- The sibling chain reached from an entity by following `Next` links:
`none` when a link leads to a missing `Hierarchy` component or the fuel
runs out (broken chain). -/
def chainFrom (s : Registry) : Ent → Nat → Option (List Nat)
  | none, _ => some []
  | some _, 0 => none
  | some e, fuel + 1 =>
    match alookup s.hier e with
    | none => none
    | some h => (chainFrom s h.Next fuel).map (fun l => e :: l)

/-- The child list of `parent`: the sibling chain rooted at its
`FirstChild` (an entity without a `Hierarchy` component has no children). -/
def childList (s : Registry) (parent : Nat) (fuel : Nat) : Option (List Nat) :=
  match alookup s.hier parent with
  | none => some []
  | some h => chainFrom s h.FirstChild fuel

/-- The ancestors of an entity reached by iterating `GetParent`, nearest
first; `none` when the fuel runs out (cyclic chain: the C++ loop diverges). -/
def ancestorList (s : Registry) : Ent → Nat → Option (List Nat)
  | none, _ => some []
  | some _, 0 => none
  | some p, fuel + 1 => (ancestorList s (GetParent s p) fuel).map (fun l => p :: l)

/-- Modelled from the spec: `math::FixAngles` lives in
`utility/math/CoordinateSystem.hpp`, which is not among the sources; the
spec describes it as wrapping each Euler axis into the canonical range
[-180°, 180°).  One axis. -/
def fixAngle (x : Rat) : Rat := x - 360 * ((⌊(x + 180) / 360⌋ : Int) : Rat)

/-- Modelled from the spec: `math::FixAngles` applied per axis. -/
def FixAngles (v : Vec3) : Vec3 := (fixAngle v.1, fixAngle v.2.1, fixAngle v.2.2)

/-- The entity's `RotationEulerXYZ.Value`, zero when the component is absent
(`try_get` returning null contributes nothing to the accumulation). -/
def eulerOrZero (s : Registry) (e : Nat) : Vec3 := (alookup s.euler e).getD 0

/-- The accumulation loop of `CalculateAbsoluteRotationEulerXYZ`: walk the
parent chain, adding each ancestor's `RotationEulerXYZ.Value` when present. -/
def calcLoop (s : Registry) : Ent → Vec3 → Nat → Option Vec3
  | none, acc, _ => some acc
  | some _, _, 0 => none
  | some p, acc, fuel + 1 =>
    let acc' := match alookup s.euler p with
                | some v => acc + v
                | none => acc
    calcLoop s (GetParent s p) acc' fuel

/-- `game::components::CalculateAbsoluteRotationEulerXYZ`: the entity's own
`RotationEulerXYZ` is fetched with `registry.get` (precondition: present,
else `none`), ancestors contribute via `try_get`, and the sum is passed
through `math::FixAngles`. -/
def CalculateAbsoluteRotationEulerXYZ (s : Registry) (entity : Nat) (fuel : Nat) : Option Vec3 :=
  match alookup s.euler entity with
  | none => none
  | some v =>
    match calcLoop s (GetParent s entity) v fuel with
    | none => none
    | some acc => some (FixAngles acc)

/-- A quaternion with exact (rational) components, standing in for `glm::quat`
(constructor order `w, x, y, z`). -/
structure Quat where
  w : Rat := 0
  x : Rat := 0
  y : Rat := 0
  z : Rat := 0
deriving DecidableEq, Repr

/-- The squared norm of a quaternion; a unit quaternion has `normSq = 1`. -/
def Quat.normSq (q : Quat) : Rat := q.w ^ 2 + q.x ^ 2 + q.y ^ 2 + q.z ^ 2

/-- `game::components::Rotation`: the member initializer in `Entities.hpp` is
`glm::quat Value{0.f, 0.f, 0.f, 0.f}`, i.e. the zero quaternion. -/
structure Rotation where
  Value : Quat := {}
deriving DecidableEq, Repr

/-- A node of a keyvalues tree: either a key/value pair (`kv::KV`) or a named
block with an ordered list of children (`kv::Block`).  Modelled from the spec:
the Keyvalues library itself is not among the sources, only its use in
`CCmdLineConfig.cpp`. -/
inductive KVNode where
  | kv (key value : String)
  | block (key : String) (children : List KVNode)

/-- Modelled from the spec: `kv::Block::FindFirstChild<kv::KV>` — the first
child that is a key/value pair and whose key matches. -/
def findFirstKV : List KVNode → String → Option (String × String)
  | [], _ => none
  | .kv k v :: rest, key => if k = key then some (k, v) else findFirstKV rest key
  | .block _ _ :: rest, key => findFirstKV rest key

/-- Modelled from the spec: `kv::Block::FindFirstChild<kv::Block>` — the first
child that is a block and whose name matches; yields its children. -/
def findFirstBlock : List KVNode → String → Option (List KVNode)
  | [], _ => none
  | .kv _ _ :: rest, key => findFirstBlock rest key
  | .block k cs :: rest, key => if k = key then some cs else findFirstBlock rest key

/-- Modelled from the spec: C `atoi` — skip leading whitespace, read an
optional sign and then leading digits, 0 when there are none. -/
def readDigits : List Char → Nat → Nat
  | [], acc => acc
  | c :: rest, acc =>
    if c.isDigit then readDigits rest (acc * 10 + (c.toNat - '0'.toNat)) else acc

/-- Modelled from the spec: C `atoi` on a string. -/
def atoi (str : String) : Int :=
  let cs := str.data.dropWhile (fun c => c = ' ' || c = '\t' || c = '\n' || c = '\r')
  match cs with
  | '-' :: rest => -(readDigits rest 0 : Int)
  | '+' :: rest => (readDigits rest 0 : Int)
  | rest => (readDigits rest 0 : Int)

/-- The result of `settings::LoadCmdLineConfig` (a `CCmdLineConfig`). -/
structure CmdLineConfig where
  name : String
  parameters : List (String × String)
  copyOutputFiles : Bool
  filters : List String
deriving DecidableEq, Repr

/-- The parameter entry a child of the `parameters` block contributes:
`dynamic_cast<kv::KV*>` succeeds only for key/value pairs. -/
def paramEntry : KVNode → Option (String × String)
  | .kv k v => some (k, v)
  | .block _ _ => none

/-- The filter entry a child of the `filters` block contributes. -/
def filterEntry : KVNode → Option String
  | .kv _ v => some v
  | .block _ _ => none

/-- `settings::LoadCmdLineConfig`, transcribed from `CCmdLineConfig.cpp`:
null (`none`) exactly when one of the four required children is absent;
children of the `parameters`/`filters` blocks that are not key/value pairs
are skipped with a warning and contribute no entry. -/
def LoadCmdLineConfig (kvSettings : List KVNode) : Option CmdLineConfig :=
  match findFirstKV kvSettings "name", findFirstBlock kvSettings "parameters",
        findFirstKV kvSettings "copyOutputFiles", findFirstBlock kvSettings "filters" with
  | some nm, some params, some copyKV, some filts =>
    some { name := nm.2
           parameters := params.filterMap paramEntry
           copyOutputFiles := atoi copyKV.2 ≠ 0
           filters := filts.filterMap filterEntry }
  | _, _, _, _ => none

/-- The registry obtained from an empty registry by `SetParent(0, 1)`:
entity 0 is a child of entity 1, and entity 1 is a root with a child. -/
def regChainAB : Registry :=
  ⟨[(1, ⟨none, none, none, some 0⟩), (0, ⟨some 1, none, none, none⟩)], [0], []⟩

/-- A registry in which entity 0 is a root with exactly one child, entity 1. -/
def regRootWithChild : Registry :=
  ⟨[(0, ⟨none, none, none, some 1⟩), (1, ⟨some 0, none, none, none⟩)], [1], []⟩

/-- The sum of the Euler contributions of a list of entities (absent
`RotationEulerXYZ` components contribute zero). -/
def sumEuler (s : Registry) (l : List Nat) : Vec3 := (l.map (eulerOrZero s)).sum

/-- A 3-deep chain 0 → 1 → 2 whose per-level `RotationEulerXYZ` values are
(10°,0,0), (350°,0,0) and (10°,0,0): the raw sum on the x axis is 370°. -/
def regEulerChain : Registry :=
  ⟨[(0, ⟨some 1, none, none, none⟩), (1, ⟨some 2, none, none, some 0⟩),
    (2, ⟨none, none, none, some 1⟩)], [0, 1],
   [(0, (10, 0, 0)), (1, (350, 0, 0)), (2, (10, 0, 0))]⟩

/-- The `Next` sibling link of an entity, `none`-wrapped: distinguishes a
missing `Hierarchy` component (`none`) from a null link (`some none`). -/
def nextOf (s : Registry) (x : Nat) : Option Ent :=
  (alookup s.hier x).map Hierarchy.Next

/-- The head of an entity's child list; an entity without a `Hierarchy`
component has no children (the spec makes the two states equivalent). -/
def firstChildOf (s : Registry) (x : Nat) : Ent :=
  match alookup s.hier x with
  | some h => h.FirstChild
  | none => none

/-- A registry in which entity 1 has the two children 2 and 0, in that
sibling order, so that entity 0 is a child of 1 but not the head child. -/
def regTailChild : Registry :=
  ⟨[(1, ⟨none, none, none, some 2⟩), (2, ⟨some 1, none, some 0, none⟩),
    (0, ⟨some 1, some 2, none, none⟩)], [0, 2], []⟩

/-- A registry in which entity 1 is a root with the single child 2 and
entity 0 is hierarchy-free. -/
def regW : Registry :=
  ⟨[(1, ⟨none, none, none, some 2⟩), (2, ⟨some 1, none, none, none⟩)], [2], []⟩

/-- The registry produced by `SetParent regW 0 (some 1) 10`: entity 0 is
spliced in at the head of 1's child list, in front of 2. -/
def regW' : Registry :=
  ⟨[(1, ⟨none, none, none, some 0⟩), (0, ⟨some 1, none, some 2, none⟩),
    (2, ⟨some 1, some 0, none, none⟩)], [0, 2], []⟩

/-- The one direction of the component-pairing invariant that the code does
maintain: every entity carrying `LocalToParent` also carries `Hierarchy`. -/
def LtpImpliesHier (s : Registry) : Prop :=
  ∀ x ∈ s.ltp, (alookup s.hier x).isSome = true

/-- A concrete `settings` block holding all four required children, with a
non-key-value child (a nested block) inside both the `parameters` block and
the `filters` block. -/
def kvExample : List KVNode :=
  [.kv "name" "cfg",
   .block "parameters" [.kv "a" "1", .block "junk" [], .kv "b" "2"],
   .kv "copyOutputFiles" "1",
   .block "filters" [.kv "filter" "x", .block "junk2" []]]

theorem alookup_aerase {β : Type} (m : List (Nat × β)) (k j : Nat) :
    alookup (aerase m k) j = if j = k then none else alookup m j := by
  induction m with
  | nil => simp [aerase, alookup]
  | cons kv rest ih =>
    obtain ⟨a, b⟩ := kv
    by_cases hak : a = k
    · subst hak
      by_cases hj : j = a
      · subst hj
        simp [aerase, alookup, ih]
      · simp [aerase, alookup, ih, hj, Ne.symm hj]
    · by_cases hj : j = k
      · subst hj
        simp [aerase, alookup, ih, hak, Ne.symm hak]
      · by_cases haj : a = j
        · subst haj
          simp [aerase, alookup, ih, hak, hj]
        · simp [aerase, alookup, ih, hak, hj, haj]

theorem alookup_ainsert {β : Type} (m : List (Nat × β)) (k j : Nat) (v : β) :
    alookup (ainsert m k v) j = if j = k then some v else alookup m j := by
  by_cases hj : j = k
  · simp [ainsert, alookup, hj]
  · simp [ainsert, alookup, hj, alookup_aerase, Ne.symm hj]

/-- C1: the cycle-prevention scenario cannot even run on this code.  From a
hierarchy-free registry, `SetParent(A, B)` succeeds (denote the result
`regChainAB` for `A = 0`, `B = 1`), but the follow-up `SetParent(B, C)` fails
with a component access on the null entity — `B` is now a root with a child,
and the detach phase runs `registry.get<Hierarchy>(hierarchy->Parent)` with
`Parent == entt::null` — so the sequence never reaches `SetParent(C, A)`,
where the claim expects a clean rejection.  (The cycle guard itself, reached
only via hierarchies built bottom-up, is exercised in other theorems.) -/
theorem setParent_cycle_scenario_hits_null_parent_deref :
    SetParent ⟨[], [], []⟩ 0 (some 1) 10 = some regChainAB ∧
      SetParent regChainAB 1 (some 2) 10 = none :=
  ⟨rfl, rfl⟩

/-- C2: reparenting a root entity that has children violates a
component-access precondition.  Entity 0 is a root (null `Parent`) with one
child; `SetParent(0, 2)` runs `registry.get<Hierarchy>(entt::null)` in the
detach phase and fails, contradicting the claim that the call completes, in
particular, when the reparented entity was a root. -/
theorem setParent_root_with_children_null_deref :
    SetParent regRootWithChild 0 (some 2) 10 = none :=
  rfl

/-- C8: a default-constructed `Rotation` component stores the zero
quaternion (`glm::quat Value{0.f, 0.f, 0.f, 0.f}`), whose norm is 0, not 1;
the claimed unit-quaternion invariant fails at the default value. -/
theorem default_rotation_is_zero_quaternion :
    ({} : Rotation).Value.normSq = 0 ∧ ({} : Rotation).Value.normSq ≠ 1 := by
  constructor <;> norm_num [Quat.normSq]

/-- C4 counterexample: after `SetParent(0, 1)` from a hierarchy-free
registry, entity 1 (which acquired a `Hierarchy` component solely by
becoming a parent) carries no `LocalToParent` component, refuting the
claimed equivalence between the two components. -/
theorem pure_parent_lacks_localToParent :
    SetParent ⟨[], [], []⟩ 0 (some 1) 10 = some regChainAB ∧
      (alookup regChainAB.hier 1).isSome = true ∧ 1 ∉ regChainAB.ltp := by
  refine ⟨rfl, rfl, ?_⟩
  decide

theorem fixAngle_spec (x : Rat) (k : Int) (h1 : -180 ≤ x - 360 * k) (h2 : x - 360 * k < 180) :
    fixAngle x = x - 360 * k := by
  have hk : ⌊(x + 180) / 360⌋ = k := by
    rw [Int.floor_eq_iff]
    constructor
    · rw [le_div_iff₀ (by norm_num : (0:Rat) < 360)]
      linarith
    · rw [div_lt_iff₀ (by norm_num : (0:Rat) < 360)]
      linarith
  simp [fixAngle, hk]

theorem calcLoop_eq_sum (s : Registry) (fuel : Nat) :
    ∀ (c : Ent) (acc : Vec3),
      calcLoop s c acc fuel = (ancestorList s c fuel).map (fun l => acc + sumEuler s l) := by
  induction fuel with
  | zero =>
    intro c acc
    cases c with
    | none => simp [calcLoop, ancestorList, sumEuler]
    | some p => simp [calcLoop, ancestorList]
  | succ n ih =>
    intro c acc
    cases c with
    | none => simp [calcLoop, ancestorList, sumEuler]
    | some p =>
      simp only [calcLoop, ancestorList, ih]
      cases hal : ancestorList s (GetParent s p) n with
      | none => simp
      | some l =>
        cases he : alookup s.euler p with
        | none => simp [sumEuler, eulerOrZero, he, add_assoc]
        | some v => simp [sumEuler, eulerOrZero, he, add_assoc]

/-- C7: `CalculateAbsoluteRotationEulerXYZ` returns the componentwise sum of
the entity's own `RotationEulerXYZ.Value` and those of all its ancestors
(absent components contributing zero), normalized per axis by
`math::FixAngles`; on the 3-deep chain `regEulerChain` with per-level values
(10°,0,0), (350°,0,0), (10°,0,0), the raw x sum 370° comes back wrapped to
10°, not as 370°. -/
theorem calculateAbsolute_sums_and_wraps (s : Registry) (e : Nat) (fuel : Nat) (v : Vec3)
    (l : List Nat) (he : alookup s.euler e = some v)
    (hl : ancestorList s (GetParent s e) fuel = some l) :
    CalculateAbsoluteRotationEulerXYZ s e fuel = some (FixAngles (v + sumEuler s l)) ∧
      CalculateAbsoluteRotationEulerXYZ regEulerChain 0 3 = some (10, 0, 0) := by
  constructor
  · simp [CalculateAbsoluteRotationEulerXYZ, he, calcLoop_eq_sum, hl]
  · have hx : ((10:Rat) + 350) + 10 = 370 := by norm_num
    have hz : ((0:Rat) + 0) + 0 = 0 := by norm_num
    have hfx : fixAngle 370 = 10 := by
      have h := fixAngle_spec 370 1 (by norm_num) (by norm_num)
      norm_num at h
      exact h
    have hf0 : fixAngle 0 = 0 := by
      have h := fixAngle_spec 0 0 (by norm_num) (by norm_num)
      norm_num at h
      exact h
    simp [CalculateAbsoluteRotationEulerXYZ, regEulerChain, alookup, GetParent, calcLoop,
      FixAngles, Prod.mk_add_mk, hx, hz, hfx, hf0]

/-- C10: on a well-formed (terminating) ancestor chain, every component
access inside `CalculateAbsoluteRotationEulerXYZ` succeeds exactly when the
queried entity itself carries a `RotationEulerXYZ` component: the entity's
own component is fetched unconditionally with `registry.get`, while absent
ancestor components merely contribute zero. -/
theorem calculateAbsolute_isSome_iff (s : Registry) (e : Nat) (fuel : Nat) (l : List Nat)
    (hl : ancestorList s (GetParent s e) fuel = some l) :
    (CalculateAbsoluteRotationEulerXYZ s e fuel).isSome = (alookup s.euler e).isSome := by
  cases he : alookup s.euler e with
  | none => simp [CalculateAbsoluteRotationEulerXYZ, he]
  | some v => simp [CalculateAbsoluteRotationEulerXYZ, he, calcLoop_eq_sum, hl]

/-- Witness for C7 at the concrete 3-deep chain: the hypotheses hold by
evaluation and the conclusion is the claim's normalization example. -/
theorem calculateAbsolute_sums_and_wraps_witness :
    alookup regEulerChain.euler 0 = some ((10:Rat), 0, 0) ∧
      ancestorList regEulerChain (GetParent regEulerChain 0) 3 = some [1, 2] ∧
      CalculateAbsoluteRotationEulerXYZ regEulerChain 0 3 =
        some (FixAngles (((10:Rat), 0, 0) + sumEuler regEulerChain [1, 2])) :=
  ⟨rfl, rfl, (calculateAbsolute_sums_and_wraps regEulerChain 0 3 ((10:Rat), 0, 0) [1, 2]
    rfl rfl).1⟩

/-- Witness for C10 at the same concrete chain. -/
theorem calculateAbsolute_isSome_iff_witness :
    ancestorList regEulerChain (GetParent regEulerChain 0) 3 = some [1, 2] ∧
      (CalculateAbsoluteRotationEulerXYZ regEulerChain 0 3).isSome =
        (alookup regEulerChain.euler 0).isSome :=
  ⟨rfl, calculateAbsolute_isSome_iff regEulerChain 0 3 [1, 2] rfl⟩

theorem length_filterMap_eq_length_filter {α β : Type} (f : α → Option β) (l : List α) :
    (l.filterMap f).length = (l.filter (fun c => (f c).isSome)).length := by
  induction l with
  | nil => simp
  | cons a rest ih => cases hf : f a <;> simp [List.filterMap_cons, hf, ih]

/-- C9: `LoadCmdLineConfig` returns null exactly when one of the four
required children (`name`, the `parameters` block, `copyOutputFiles`, the
`filters` block) is absent; children of the `parameters`/`filters` blocks
that are not key-value pairs never cause the load to fail and contribute no
entry — the loaded lists are exactly the key-value children (one entry per
key-value child). -/
theorem loadCmdLineConfig_skip_and_warn (settings : List KVNode) :
    (LoadCmdLineConfig settings = none ↔
      findFirstKV settings "name" = none ∨ findFirstBlock settings "parameters" = none ∨
        findFirstKV settings "copyOutputFiles" = none ∨
        findFirstBlock settings "filters" = none) ∧
      (∀ cfg params, LoadCmdLineConfig settings = some cfg →
        findFirstBlock settings "parameters" = some params →
        cfg.parameters = params.filterMap paramEntry ∧
          cfg.parameters.length = (params.filter (fun c => (paramEntry c).isSome)).length) ∧
      (∀ cfg filts, LoadCmdLineConfig settings = some cfg →
        findFirstBlock settings "filters" = some filts →
        cfg.filters = filts.filterMap filterEntry ∧
          cfg.filters.length = (filts.filter (fun c => (filterEntry c).isSome)).length) := by
  cases hn : findFirstKV settings "name" <;>
    cases hp : findFirstBlock settings "parameters" <;>
      cases hc : findFirstKV settings "copyOutputFiles" <;>
        cases hf : findFirstBlock settings "filters" <;>
          simp [LoadCmdLineConfig, hn, hp, hc, hf]
  exact ⟨length_filterMap_eq_length_filter _ _, length_filterMap_eq_length_filter _ _⟩

/-- Witness for C9 at `kvExample`: the load succeeds despite the non-KV
child in the parameters block, and the parameter list has exactly one entry
per key-value child. -/
theorem loadCmdLineConfig_skip_and_warn_witness :
    (⟨"cfg", [("a", "1"), ("b", "2")], true, ["x"]⟩ : CmdLineConfig).parameters =
        [KVNode.kv "a" "1", KVNode.block "junk" [], KVNode.kv "b" "2"].filterMap paramEntry ∧
      (⟨"cfg", [("a", "1"), ("b", "2")], true, ["x"]⟩ : CmdLineConfig).parameters.length =
        ([KVNode.kv "a" "1", KVNode.block "junk" [], KVNode.kv "b" "2"].filter
          (fun c => (paramEntry c).isSome)).length :=
  (loadCmdLineConfig_skip_and_warn kvExample).2.1 _ _ rfl rfl

theorem Registry.setHier_hier (s : Registry) (n : Nat) (h : Hierarchy) :
    (s.setHier n h).hier = ainsert s.hier n h := rfl

theorem Registry.setHier_ltp (s : Registry) (n : Nat) (h : Hierarchy) :
    (s.setHier n h).ltp = s.ltp := rfl

theorem Registry.eraseHier_hier (s : Registry) (n : Nat) :
    (s.eraseHier n).hier = aerase s.hier n := rfl

theorem Registry.eraseHier_ltp (s : Registry) (n : Nat) :
    (s.eraseHier n).ltp = s.ltp := rfl

theorem Registry.addLtp_hier (s : Registry) (n : Nat) : (s.addLtp n).hier = s.hier := rfl

theorem Registry.addLtp_ltp (s : Registry) (n : Nat) :
    (s.addLtp n).ltp = if n ∈ s.ltp then s.ltp else n :: s.ltp := rfl

theorem Registry.removeLtp_hier (s : Registry) (n : Nat) : (s.removeLtp n).hier = s.hier := rfl

theorem Registry.removeLtp_ltp (s : Registry) (n : Nat) :
    (s.removeLtp n).ltp = s.ltp.filter (fun x => x ≠ n) := rfl

theorem ltpImpliesHier_setHier {s : Registry} (n : Nat) (h : Hierarchy)
    (hs : LtpImpliesHier s) : LtpImpliesHier (s.setHier n h) := by
  intro x hx
  rw [Registry.setHier_ltp] at hx
  rw [Registry.setHier_hier, alookup_ainsert]
  by_cases hxn : x = n
  · simp [hxn]
  · rw [if_neg hxn]
    exact hs x hx

theorem ltpImpliesHier_addLtp {s : Registry} (n : Nat)
    (hn : (alookup s.hier n).isSome = true) (hs : LtpImpliesHier s) :
    LtpImpliesHier (s.addLtp n) := by
  intro x hx
  rw [Registry.addLtp_ltp] at hx
  rw [Registry.addLtp_hier]
  by_cases hmem : n ∈ s.ltp
  · rw [if_pos hmem] at hx
    exact hs x hx
  · rw [if_neg hmem] at hx
    rcases List.mem_cons.mp hx with hxn | hxs
    · exact hxn ▸ hn
    · exact hs x hxs

theorem ltpImpliesHier_cascade {s : Registry} (n : Nat) (hs : LtpImpliesHier s) :
    LtpImpliesHier ((s.eraseHier n).removeLtp n) := by
  intro x hx
  rw [Registry.removeLtp_ltp, Registry.eraseHier_ltp, List.mem_filter] at hx
  obtain ⟨hx1, hx2⟩ := hx
  have hxn : x ≠ n := by simpa using hx2
  rw [Registry.removeLtp_hier, Registry.eraseHier_hier, alookup_aerase, if_neg hxn]
  exact hs x hx1

theorem ltpImpliesHier_removeLtp {s : Registry} (n : Nat) (hs : LtpImpliesHier s) :
    LtpImpliesHier (s.removeLtp n) := by
  intro x hx
  rw [Registry.removeLtp_ltp, List.mem_filter] at hx
  rw [Registry.removeLtp_hier]
  exact hs x hx.1

theorem ltpImpliesHier_eraseHier {s : Registry} (n : Nat) (hn : n ∉ s.ltp)
    (hs : LtpImpliesHier s) : LtpImpliesHier (s.eraseHier n) := by
  intro x hx
  rw [Registry.eraseHier_ltp] at hx
  have hxn : x ≠ n := fun he => hn (he ▸ hx)
  rw [Registry.eraseHier_hier, alookup_aerase, if_neg hxn]
  exact hs x hx

theorem patchPrevious_pres {s s' : Registry} {e : Nat} (hs : LtpImpliesHier s)
    (hp : patchPrevious s e = some s') : LtpImpliesHier s' := by
  simp only [patchPrevious] at hp
  cases h1 : alookup s.hier e <;> simp only [h1] at hp
  case none => cases hp
  case some h =>
    cases h2 : h.Previous <;> simp only [h2] at hp
    case none =>
      cases hp
      exact hs
    case some pr =>
      cases h3 : alookup s.hier pr <;> simp only [h3] at hp
      case none => cases hp
      case some ph =>
        cases hp
        exact ltpImpliesHier_setHier _ _ hs

theorem patchNext_pres {s s' : Registry} {e : Nat} (hs : LtpImpliesHier s)
    (hp : patchNext s e = some s') : LtpImpliesHier s' := by
  simp only [patchNext] at hp
  cases h1 : alookup s.hier e <;> simp only [h1] at hp
  case none => cases hp
  case some h =>
    cases h2 : h.Next <;> simp only [h2] at hp
    case none =>
      cases hp
      exact hs
    case some nx =>
      cases h3 : alookup s.hier nx <;> simp only [h3] at hp
      case none => cases hp
      case some nh =>
        cases hp
        exact ltpImpliesHier_setHier _ _ hs

theorem patchParent_pres {s s' : Registry} {e : Nat} (hs : LtpImpliesHier s)
    (hp : patchParent s e = some s') : LtpImpliesHier s' := by
  simp only [patchParent] at hp
  cases h1 : alookup s.hier e <;> simp only [h1] at hp
  case none => cases hp
  case some h =>
    cases h2 : h.Parent <;> simp only [h2] at hp
    case none => cases hp
    case some par =>
      cases h3 : alookup s.hier par <;> simp only [h3] at hp
      case none => cases hp
      case some ph =>
        by_cases hc : (if ph.FirstChild = some e then { ph with FirstChild := h.Next }
              else ph).FirstChild = none ∧
            (if ph.FirstChild = some e then { ph with FirstChild := h.Next }
              else ph).Parent = none
        · rw [if_pos hc] at hp
          cases hp
          exact ltpImpliesHier_cascade _ (ltpImpliesHier_setHier _ _ hs)
        · rw [if_neg hc] at hp
          cases hp
          exact ltpImpliesHier_setHier _ _ hs

theorem clearLinks_pres {s s' : Registry} {e : Nat} (hs : LtpImpliesHier s)
    (hp : clearLinks s e = some s') : LtpImpliesHier s' := by
  simp only [clearLinks] at hp
  cases h1 : alookup s.hier e <;> simp only [h1] at hp
  case none => cases hp
  case some h =>
    cases hp
    exact ltpImpliesHier_setHier _ _ hs

theorem detachPhase_pres {s s' : Registry} {e : Nat} (hs : LtpImpliesHier s)
    (hp : detachPhase s e = some s') : LtpImpliesHier s' := by
  cases hpp : patchPrevious s e with
  | none => simp [detachPhase, hpp] at hp
  | some s1 =>
    cases hpn : patchNext s1 e with
    | none => simp [detachPhase, hpp, hpn] at hp
    | some s2 =>
      cases hppar : patchParent s2 e with
      | none => simp [detachPhase, hpp, hpn, hppar] at hp
      | some s3 =>
        have hcl : clearLinks s3 e = some s' := by
          simpa [detachPhase, hpp, hpn, hppar] using hp
        exact clearLinks_pres
          (patchParent_pres (patchNext_pres (patchPrevious_pres hs hpp) hpn) hppar) hcl

theorem clearingPhase_pres {s s' : Registry} {e : Nat} (hs : LtpImpliesHier s)
    (hp : clearingPhase s e = some s') : LtpImpliesHier s' := by
  simp only [clearingPhase] at hp
  cases h1 : alookup (s.removeLtp e).hier e <;> simp only [h1] at hp
  case none => cases hp
  case some h =>
    split at hp
    · cases hp
      refine ltpImpliesHier_eraseHier _ ?_ (ltpImpliesHier_removeLtp _ hs)
      rw [Registry.removeLtp_ltp]
      simp
    · cases hp
      exact ltpImpliesHier_removeLtp _ hs

theorem attachSplice_pres {s4 s' : Registry} {e p : Nat} (hs : LtpImpliesHier s4)
    (hp : attachSplice s4 e p = some s') : LtpImpliesHier s' := by
  simp only [attachSplice] at hp
  cases h3 : alookup s4.hier p <;> simp only [h3] at hp
  case none => cases hp
  case some children =>
    cases h4 : children.FirstChild <;> simp only [h4] at hp
    case none =>
      cases hp
      exact ltpImpliesHier_setHier _ _ hs
    case some fc =>
      cases h5 : alookup s4.hier fc <;> simp only [h5] at hp
      case none => cases hp
      case some nh =>
        have hs5 := ltpImpliesHier_setHier fc { nh with Previous := some e } hs
        cases h6 : alookup (s4.setHier fc { nh with Previous := some e }).hier e <;>
          simp only [h6] at hp
        case none => cases hp
        case some h2' =>
          have hs6 := ltpImpliesHier_setHier e
            { h2' with Next := some fc, Previous := none } hs5
          cases h7 : alookup ((s4.setHier fc { nh with Previous := some e }).setHier e
              { h2' with Next := some fc, Previous := none }).hier p <;> simp only [h7] at hp
          case none => cases hp
          case some ch2 =>
            cases hp
            exact ltpImpliesHier_setHier _ _ hs6

theorem attachCore_pres {s2 s' : Registry} {e p : Nat} (hs : LtpImpliesHier s2)
    (hp : attachCore s2 e p = some s') : LtpImpliesHier s' := by
  simp only [attachCore] at hp
  cases h1 : alookup s2.hier e <;> simp only [h1] at hp
  case none => cases hp
  case some h =>
    have hs3 : LtpImpliesHier (s2.setHier e { h with Parent := some p }) :=
      ltpImpliesHier_setHier _ _ hs
    cases h2 : alookup (s2.setHier e { h with Parent := some p }).hier p <;>
      simp only [h2] at hp
    case none => exact attachSplice_pres (ltpImpliesHier_setHier _ _ hs3) hp
    case some hpp => exact attachSplice_pres hs3 hp

theorem attachPhase_pres {s s' : Registry} {e p : Nat} (hs : LtpImpliesHier s)
    (hp : attachPhase s e p = some s') : LtpImpliesHier s' := by
  simp only [attachPhase] at hp
  cases h0 : alookup s.hier e <;> simp only [h0] at hp
  case none =>
    have he1 : (alookup (s.setHier e {}).hier e).isSome = true := by
      rw [Registry.setHier_hier, alookup_ainsert, if_pos rfl]
      rfl
    exact attachCore_pres (ltpImpliesHier_addLtp e he1 (ltpImpliesHier_setHier _ _ hs)) hp
  case some h0v =>
    have he1 : (alookup s.hier e).isSome = true := by rw [h0]; rfl
    exact attachCore_pres (ltpImpliesHier_addLtp e he1 hs) hp

theorem SetParent_pres {s s' : Registry} {e : Nat} {p : Ent} {fuel : Nat}
    (hs : LtpImpliesHier s) (h : SetParent s e p fuel = some s') : LtpImpliesHier s' := by
  simp only [SetParent] at h
  by_cases hep : some e = p
  · rw [if_pos hep] at h
    cases h
    exact hs
  · rw [if_neg hep] at h
    cases hcc : cycleCheck s e p fuel with
    | none =>
      simp only [hcc] at h
      cases h
    | some b =>
      cases b with
      | true =>
        simp only [hcc] at h
        cases h
        exact hs
      | false =>
        simp only [hcc] at h
        cases h1 : alookup s.hier e with
        | none =>
          simp only [h1] at h
          cases p with
          | some q => exact attachPhase_pres hs h
          | none =>
            cases h
            exact hs
        | some hh =>
          simp only [h1] at h
          by_cases hpar : hh.Parent = p
          · rw [if_pos hpar] at h
            cases h
            exact hs
          · rw [if_neg hpar] at h
            cases hd : detachPhase s e with
            | none =>
              simp only [hd] at h
              cases h
            | some s1 =>
              simp only [hd] at h
              have hs1 := detachPhase_pres hs hd
              cases p with
              | some q => exact attachPhase_pres hs1 h
              | none => exact clearingPhase_pres hs1 h

theorem runOps_pres (fuel : Nat) (ops : List HierOp) :
    ∀ s s', LtpImpliesHier s → runOps s fuel ops = some s' → LtpImpliesHier s' := by
  induction ops with
  | nil =>
    intro s s' hs h
    simp only [runOps] at h
    cases h
    exact hs
  | cons op rest ih =>
    intro s s' hs h
    simp only [runOps] at h
    cases hop : applyOp s fuel op <;> simp only [hop] at h
    case none => cases h
    case some s1 =>
      have hs1 : LtpImpliesHier s1 := by
        cases op with
        | set e q => exact SetParent_pres hs hop
        | clear e => exact SetParent_pres hs (by simpa [applyOp, ClearParent] using hop)
      exact ih s1 s' hs1 h

/-- C4 (amended): after every sequence of `SetParent`/`ClearParent` calls
from a hierarchy-free registry, every entity carrying `LocalToParent` also
carries `Hierarchy`; the converse direction of the claimed equivalence is
false — see the counterexample: an entity that becomes a parent acquires
`Hierarchy` (via `get_or_assign<Hierarchy>(parent)`) but no
`LocalToParent`. -/
theorem hierarchy_ops_ltp_implies_hierarchy (fuel : Nat) (ops : List HierOp)
    (s0 s' : Registry) (_h0 : s0.hier = []) (h1 : s0.ltp = [])
    (hrun : runOps s0 fuel ops = some s') : LtpImpliesHier s' := by
  apply runOps_pres fuel ops s0 s' _ hrun
  intro x hx
  rw [h1] at hx
  cases hx

/-- Witness for C4 (amended) at a concrete two-edit run from the empty
registry. -/
theorem hierarchy_ops_ltp_implies_hierarchy_witness :
    runOps ⟨[], [], []⟩ 10 [.set 0 (some 1), .set 2 (some 0)] =
      some ⟨[(0, ⟨some 1, none, none, some 2⟩), (2, ⟨some 0, none, none, none⟩),
             (1, ⟨none, none, none, some 0⟩)], [2, 0], []⟩ ∧
      LtpImpliesHier ⟨[(0, ⟨some 1, none, none, some 2⟩), (2, ⟨some 0, none, none, none⟩),
        (1, ⟨none, none, none, some 0⟩)], [2, 0], []⟩ :=
  ⟨rfl, hierarchy_ops_ltp_implies_hierarchy 10 [.set 0 (some 1), .set 2 (some 0)]
    ⟨[], [], []⟩ _ rfl rfl rfl⟩

/-- C5: cascading cleanup, one level only.  If `B` has exactly one child `A`
(so `A` has no siblings) and `B` itself has no parent, then
`ClearParent(A)` removes both the `Hierarchy` and the `LocalToParent`
component from `B`; and if `A` has no children of its own, `A` ends with
neither component either. -/
theorem clearParent_cascading_cleanup (s : Registry) (A B : Nat) (fcA pvB nxB : Ent)
    (fuel : Nat) (hAB : A ≠ B)
    (hA : alookup s.hier A = some ⟨some B, none, none, fcA⟩)
    (hB : alookup s.hier B = some ⟨none, pvB, nxB, some A⟩) :
    ∃ s', ClearParent s A fuel = some s' ∧
      alookup s'.hier B = none ∧ B ∉ s'.ltp ∧
      (fcA = none → alookup s'.hier A = none ∧ A ∉ s'.ltp) := by
  have hBA : B ≠ A := Ne.symm hAB
  cases fcA with
  | none =>
    refine ⟨(((((s.setHier B ⟨none, pvB, nxB, none⟩).eraseHier B).removeLtp B).setHier A
      ⟨none, none, none, none⟩).removeLtp A).eraseHier A, ?_, ?_, ?_, ?_⟩
    · simp [ClearParent, SetParent, cycleCheck, hA, detachPhase, patchPrevious, patchNext,
        patchParent, clearLinks, clearingPhase, hB, Registry.setHier_hier,
        Registry.eraseHier_hier, Registry.removeLtp_hier, alookup_ainsert, alookup_aerase,
        hAB, hBA]
    · simp [Registry.setHier_hier, Registry.eraseHier_hier, Registry.removeLtp_hier,
        alookup_ainsert, alookup_aerase, hAB, hBA]
    · simp [Registry.setHier_ltp, Registry.eraseHier_ltp, Registry.removeLtp_ltp,
        List.mem_filter]
    · simp [Registry.setHier_hier, Registry.eraseHier_hier, Registry.removeLtp_hier,
        alookup_ainsert, alookup_aerase, Registry.setHier_ltp, Registry.eraseHier_ltp,
        Registry.removeLtp_ltp, List.mem_filter]
  | some fc =>
    refine ⟨((((s.setHier B ⟨none, pvB, nxB, none⟩).eraseHier B).removeLtp B).setHier A
      ⟨none, none, none, some fc⟩).removeLtp A, ?_, ?_, ?_, ?_⟩
    · simp [ClearParent, SetParent, cycleCheck, hA, detachPhase, patchPrevious, patchNext,
        patchParent, clearLinks, clearingPhase, hB, Registry.setHier_hier,
        Registry.eraseHier_hier, Registry.removeLtp_hier, alookup_ainsert, alookup_aerase,
        hAB, hBA]
    · simp [Registry.setHier_hier, Registry.eraseHier_hier, Registry.removeLtp_hier,
        alookup_ainsert, alookup_aerase, hAB, hBA]
    · simp [Registry.setHier_ltp, Registry.eraseHier_ltp, Registry.removeLtp_ltp,
        List.mem_filter]
    · simp

/-- Witness for C5 at `regRootWithChild` (entity 0 the root, entity 1 its
only child): clearing the child removes the hierarchy components from both. -/
theorem clearParent_cascading_cleanup_witness :
    (1 : Nat) ≠ 0 ∧
      alookup regRootWithChild.hier 1 = some ⟨some 0, none, none, none⟩ ∧
      alookup regRootWithChild.hier 0 = some ⟨none, none, none, some 1⟩ ∧
      ∃ s', ClearParent regRootWithChild 1 10 = some s' ∧
        alookup s'.hier 0 = none ∧ 0 ∉ s'.ltp ∧
        ((none : Ent) = none → alookup s'.hier 1 = none ∧ 1 ∉ s'.ltp) :=
  ⟨by decide, rfl, rfl,
    clearParent_cascading_cleanup regRootWithChild 1 0 none none none 10 (by decide) rfl rfl⟩

theorem getParent_setHier (t : Registry) (n : Nat) (hh : Hierarchy) (e : Nat) :
    GetParent (t.setHier n hh) e = if e = n then hh.Parent else GetParent t e := by
  by_cases he : e = n <;>
    simp [GetParent, Registry.setHier_hier, alookup_ainsert, he]

theorem attachSplice_getParent {s4 s' : Registry} {e p : Nat}
    (st4 : GetParent s4 e = some p) (hp : attachSplice s4 e p = some s') :
    GetParent s' e = some p := by
  simp only [attachSplice] at hp
  cases h3 : alookup s4.hier p <;> simp only [h3] at hp
  case none => cases hp
  case some children =>
    cases h4 : children.FirstChild <;> simp only [h4] at hp
    case none =>
      cases hp
      rw [getParent_setHier]
      by_cases hep : e = p
      · rw [if_pos hep]
        have hch : GetParent s4 e = children.Parent := by
          have h3' : alookup s4.hier e = some children := by
            rw [hep]
            exact h3
          simp [GetParent, h3']
        show children.Parent = some p
        rw [← hch]
        exact st4
      · rw [if_neg hep]
        exact st4
    case some fc =>
      cases h5 : alookup s4.hier fc <;> simp only [h5] at hp
      case none => cases hp
      case some nh =>
        have st5 : GetParent (s4.setHier fc { nh with Previous := some e }) e = some p := by
          rw [getParent_setHier]
          by_cases hef : e = fc
          · rw [if_pos hef]
            have hnh : GetParent s4 e = nh.Parent := by
              have h5' : alookup s4.hier e = some nh := by
                rw [hef]
                exact h5
              simp [GetParent, h5']
            show nh.Parent = some p
            rw [← hnh]
            exact st4
          · rw [if_neg hef]
            exact st4
        cases h6 : alookup (s4.setHier fc { nh with Previous := some e }).hier e <;>
          simp only [h6] at hp
        case none => cases hp
        case some h2' =>
          have hpar6 : h2'.Parent = some p := by
            have : GetParent (s4.setHier fc { nh with Previous := some e }) e = h2'.Parent := by
              simp [GetParent, h6]
            rw [← this]
            exact st5
          have st6 : GetParent ((s4.setHier fc { nh with Previous := some e }).setHier e
              { h2' with Next := some fc, Previous := none }) e = some p := by
            rw [getParent_setHier, if_pos rfl]
            exact hpar6
          cases h7 : alookup ((s4.setHier fc { nh with Previous := some e }).setHier e
              { h2' with Next := some fc, Previous := none }).hier p <;> simp only [h7] at hp
          case none => cases hp
          case some ch2 =>
            cases hp
            rw [getParent_setHier]
            by_cases hep : e = p
            · rw [if_pos hep]
              have hch : GetParent ((s4.setHier fc { nh with Previous := some e }).setHier e
                  { h2' with Next := some fc, Previous := none }) e = ch2.Parent := by
                rw [← hep] at h7
                simp [GetParent, h7]
              show ch2.Parent = some p
              rw [← hch]
              exact st6
            · rw [if_neg hep]
              exact st6

theorem attachCore_getParent {s2 s' : Registry} {e p : Nat}
    (hp : attachCore s2 e p = some s') : GetParent s' e = some p := by
  simp only [attachCore] at hp
  cases h1 : alookup s2.hier e <;> simp only [h1] at hp
  case none => cases hp
  case some h =>
    have st3 : GetParent (s2.setHier e { h with Parent := some p }) e = some p := by
      rw [getParent_setHier, if_pos rfl]
    cases h2 : alookup (s2.setHier e { h with Parent := some p }).hier p <;>
      simp only [h2] at hp
    case none =>
      refine attachSplice_getParent ?_ hp
      have hep : e ≠ p := by
        intro he
        rw [← he, Registry.setHier_hier, alookup_ainsert, if_pos rfl] at h2
        cases h2
      rw [getParent_setHier, if_neg hep]
      exact st3
    case some hpp => exact attachSplice_getParent st3 hp

theorem attachPhase_getParent {s s' : Registry} {e p : Nat}
    (hp : attachPhase s e p = some s') : GetParent s' e = some p := by
  simp only [attachPhase] at hp
  cases h0 : alookup s.hier e <;> simp only [h0] at hp <;> exact attachCore_getParent hp

theorem clearLinks_lookup {t t' : Registry} {e : Nat} (h : clearLinks t e = some t') :
    ∃ hh, alookup t'.hier e = some hh ∧ hh.Parent = none := by
  simp only [clearLinks] at h
  cases h1 : alookup t.hier e <;> simp only [h1] at h
  case none => cases h
  case some hh =>
    cases h
    exact ⟨_, by rw [Registry.setHier_hier, alookup_ainsert, if_pos rfl], rfl⟩

theorem detachPhase_lookup {s s1 : Registry} {e : Nat} (hd : detachPhase s e = some s1) :
    ∃ hh, alookup s1.hier e = some hh ∧ hh.Parent = none := by
  cases hpp : patchPrevious s e with
  | none => simp [detachPhase, hpp] at hd
  | some t1 =>
    cases hpn : patchNext t1 e with
    | none => simp [detachPhase, hpp, hpn] at hd
    | some t2 =>
      cases hppar : patchParent t2 e with
      | none => simp [detachPhase, hpp, hpn, hppar] at hd
      | some t3 =>
        have hcl : clearLinks t3 e = some s1 := by
          simpa [detachPhase, hpp, hpn, hppar] using hd
        exact clearLinks_lookup hcl

theorem clearingPhase_second {s1 s' : Registry} {e : Nat}
    (hh1 : ∃ hh, alookup s1.hier e = some hh ∧ hh.Parent = none)
    (hc : clearingPhase s1 e = some s') :
    alookup s'.hier e = none ∨ ∃ hh, alookup s'.hier e = some hh ∧ hh.Parent = none := by
  obtain ⟨hh, hl, hpar⟩ := hh1
  simp only [clearingPhase] at hc
  have hl' : alookup (s1.removeLtp e).hier e = some hh := by
    rw [Registry.removeLtp_hier]
    exact hl
  simp only [hl'] at hc
  by_cases hfc : hh.FirstChild = none
  · rw [if_pos hfc] at hc
    cases hc
    left
    rw [Registry.eraseHier_hier, alookup_aerase, if_pos rfl]
  · rw [if_neg hfc] at hc
    cases hc
    right
    exact ⟨hh, hl', hpar⟩


theorem setParent_again_noop {s' : Registry} {A q : Nat} {fuel : Nat}
    (hgp : GetParent s' A = some q)
    (h2 : cycleCheck s' A (some q) fuel ≠ none) :
    SetParent s' A (some q) fuel = some s' := by
  by_cases hep : some A = some q
  · simp only [SetParent, if_pos hep]
  · simp only [SetParent, if_neg hep]
    cases hcc : cycleCheck s' A (some q) fuel with
    | none => exact absurd hcc h2
    | some b =>
      cases b with
      | true => simp only [hcc]
      | false =>
        simp only [hcc]
        have hx : ∃ hh, alookup s'.hier A = some hh ∧ hh.Parent = some q := by
          cases hx : alookup s'.hier A with
          | none =>
            rw [GetParent, hx] at hgp
            cases hgp
          | some hh =>
            refine ⟨hh, rfl, ?_⟩
            rw [GetParent, hx] at hgp
            exact hgp
        obtain ⟨hh, hxx, hpar⟩ := hx
        simp only [hxx, if_pos hpar]

/-- C6: idempotence of `SetParent`.  If `SetParent(A, p)` completes with
result `s'`, running the same call again on `s'` is a no-op success that
returns `s'` unchanged — no duplicate sibling-list entry and no pointer
surgery happen; in particular, when `A` is already a child of `p` the call
changes nothing (the early `hierarchy->Parent == parent` return).  The only
side condition is that the second call's cycle-guard walk terminates, which
the C++ loop needs anyway to return at all. -/
theorem setParent_idempotent (s s' : Registry) (A : Nat) (p : Ent) (fuel : Nat)
    (h1 : SetParent s A p fuel = some s')
    (h2 : cycleCheck s' A p fuel ≠ none) :
    SetParent s' A p fuel = some s' := by
  by_cases hep : some A = p
  · simp only [SetParent, if_pos hep]
  · simp only [SetParent, if_neg hep] at h1
    cases hcc : cycleCheck s A p fuel with
    | none =>
      simp only [hcc] at h1
      cases h1
    | some b =>
      cases b with
      | true =>
        simp only [hcc] at h1
        cases h1
        simp only [SetParent, if_neg hep, hcc]
      | false =>
        simp only [hcc] at h1
        cases hl : alookup s.hier A with
        | none =>
          simp only [hl] at h1
          cases p with
          | none =>
            cases h1
            simp only [SetParent, if_neg hep, hcc, hl]
          | some q =>
            exact setParent_again_noop (attachPhase_getParent h1) h2
        | some hh =>
          simp only [hl] at h1
          by_cases hpar : hh.Parent = p
          · rw [if_pos hpar] at h1
            cases h1
            simp only [SetParent, if_neg hep, hcc, hl]
            rw [if_pos hpar]
          · rw [if_neg hpar] at h1
            cases hd : detachPhase s A with
            | none =>
              simp only [hd] at h1
              cases h1
            | some s1 =>
              simp only [hd] at h1
              cases p with
              | some q =>
                exact setParent_again_noop (attachPhase_getParent h1) h2
              | none =>
                rcases clearingPhase_second (detachPhase_lookup hd) h1 with hnone | ⟨hh', hl', hp'⟩
                · simp only [SetParent, if_neg hep, cycleCheck, hnone]
                · simp only [SetParent, if_neg hep, cycleCheck, hl', if_pos hp']

/-- Witness for C6: attaching entity 0 under entity 1 twice from the empty
registry; the second call returns the state of the first unchanged. -/
theorem setParent_idempotent_witness :
    SetParent ⟨[], [], []⟩ 0 (some 1) 5 = some regChainAB ∧
      cycleCheck regChainAB 0 (some 1) 5 ≠ none ∧
      SetParent regChainAB 0 (some 1) 5 = some regChainAB :=
  ⟨rfl, by decide,
    setParent_idempotent ⟨[], [], []⟩ regChainAB 0 (some 1) 5 rfl (by decide)⟩

theorem nextOf_setHier (t : Registry) (n : Nat) (hh : Hierarchy) (x : Nat) :
    nextOf (t.setHier n hh) x = if x = n then some hh.Next else nextOf t x := by
  by_cases hx : x = n <;>
    simp [nextOf, Registry.setHier_hier, alookup_ainsert, hx]

theorem nextOf_eraseHier (t : Registry) (n : Nat) (x : Nat) :
    nextOf (t.eraseHier n) x = if x = n then none else nextOf t x := by
  by_cases hx : x = n <;>
    simp [nextOf, Registry.eraseHier_hier, alookup_aerase, hx]

theorem firstChildOf_setHier (t : Registry) (n : Nat) (hh : Hierarchy) (x : Nat) :
    firstChildOf (t.setHier n hh) x = if x = n then hh.FirstChild else firstChildOf t x := by
  by_cases hx : x = n <;>
    simp [firstChildOf, Registry.setHier_hier, alookup_ainsert, hx]

theorem firstChildOf_eraseHier (t : Registry) (n : Nat) (x : Nat) :
    firstChildOf (t.eraseHier n) x = if x = n then none else firstChildOf t x := by
  by_cases hx : x = n <;>
    simp [firstChildOf, Registry.eraseHier_hier, alookup_aerase, hx]

theorem getParent_eraseHier (t : Registry) (n : Nat) (x : Nat) :
    GetParent (t.eraseHier n) x = if x = n then none else GetParent t x := by
  by_cases hx : x = n <;>
    simp [GetParent, Registry.eraseHier_hier, alookup_aerase, hx]

theorem nextOf_removeLtp (t : Registry) (n : Nat) (x : Nat) :
    nextOf (t.removeLtp n) x = nextOf t x := rfl

theorem firstChildOf_removeLtp (t : Registry) (n : Nat) (x : Nat) :
    firstChildOf (t.removeLtp n) x = firstChildOf t x := rfl

theorem getParent_removeLtp (t : Registry) (n : Nat) (x : Nat) :
    GetParent (t.removeLtp n) x = GetParent t x := rfl

theorem hierarchy_eta_next (h : Hierarchy) : ({ h with Next := h.Next } : Hierarchy) = h := rfl

theorem hierarchy_eta_prev (h : Hierarchy) : ({ h with Previous := h.Previous } : Hierarchy) = h := rfl

theorem patchPrevious_spec {s t : Registry} {A : Nat} {hA' : Hierarchy}
    (hl : alookup s.hier A = some hA') (h : patchPrevious s A = some t) :
    alookup t.hier A = some hA' ∧
      (∀ x, hA'.Previous ≠ some x → alookup t.hier x = alookup s.hier x) ∧
      (∀ x, firstChildOf t x = firstChildOf s x) ∧
      (∀ x, GetParent t x = GetParent s x) ∧
      (∀ x, (alookup t.hier x).isSome = (alookup s.hier x).isSome) := by
  simp only [patchPrevious, hl] at h
  cases hprev : hA'.Previous with
  | none =>
    simp only [hprev] at h
    cases h
    exact ⟨hl, fun x _ => rfl, fun x => rfl, fun x => rfl, fun x => rfl⟩
  | some pr =>
    simp only [hprev] at h
    cases h3 : alookup s.hier pr <;> simp only [h3] at h
    case none => cases h
    case some ph =>
      cases h
      refine ⟨?_, ?_, ?_, ?_, ?_⟩
      · by_cases hApr : A = pr
        · subst hApr
          rw [hl] at h3
          cases h3
          rw [Registry.setHier_hier, alookup_ainsert, if_pos rfl]
        · rw [Registry.setHier_hier, alookup_ainsert, if_neg hApr]
          exact hl
      · intro x hx
        have hxpr : x ≠ pr := by
          intro he
          exact hx (by rw [he])
        rw [Registry.setHier_hier, alookup_ainsert, if_neg hxpr]
      · intro x
        rw [firstChildOf_setHier]
        by_cases hx : x = pr
        · subst hx
          simp [firstChildOf, h3]
        · rw [if_neg hx]
      · intro x
        rw [getParent_setHier]
        by_cases hx : x = pr
        · subst hx
          simp [GetParent, h3]
        · rw [if_neg hx]
      · intro x
        by_cases hx : x = pr
        · subst hx
          rw [Registry.setHier_hier, alookup_ainsert, if_pos rfl, h3]
          rfl
        · rw [Registry.setHier_hier, alookup_ainsert, if_neg hx]

theorem patchNext_spec {s t : Registry} {A : Nat} {hA' : Hierarchy}
    (hl : alookup s.hier A = some hA') (h : patchNext s A = some t) :
    alookup t.hier A = some hA' ∧
      (∀ x, hA'.Next ≠ some x → alookup t.hier x = alookup s.hier x) ∧
      (∀ x, nextOf t x = nextOf s x) ∧
      (∀ x, firstChildOf t x = firstChildOf s x) ∧
      (∀ x, GetParent t x = GetParent s x) ∧
      (∀ x, (alookup t.hier x).isSome = (alookup s.hier x).isSome) := by
  simp only [patchNext, hl] at h
  cases hnext : hA'.Next with
  | none =>
    simp only [hnext] at h
    cases h
    exact ⟨hl, fun x _ => rfl, fun x => rfl, fun x => rfl, fun x => rfl, fun x => rfl⟩
  | some nx =>
    simp only [hnext] at h
    cases h3 : alookup s.hier nx <;> simp only [h3] at h
    case none => cases h
    case some nh =>
      cases h
      refine ⟨?_, ?_, ?_, ?_, ?_, ?_⟩
      · by_cases hAnx : A = nx
        · subst hAnx
          rw [hl] at h3
          cases h3
          rw [Registry.setHier_hier, alookup_ainsert, if_pos rfl]
        · rw [Registry.setHier_hier, alookup_ainsert, if_neg hAnx]
          exact hl
      · intro x hx
        have hxnx : x ≠ nx := by
          intro he
          exact hx (by rw [he])
        rw [Registry.setHier_hier, alookup_ainsert, if_neg hxnx]
      · intro x
        rw [nextOf_setHier]
        by_cases hx : x = nx
        · subst hx
          simp [nextOf, h3]
        · rw [if_neg hx]
      · intro x
        rw [firstChildOf_setHier]
        by_cases hx : x = nx
        · subst hx
          simp [firstChildOf, h3]
        · rw [if_neg hx]
      · intro x
        rw [getParent_setHier]
        by_cases hx : x = nx
        · subst hx
          simp [GetParent, h3]
        · rw [if_neg hx]
      · intro x
        by_cases hx : x = nx
        · subst hx
          rw [Registry.setHier_hier, alookup_ainsert, if_pos rfl, h3]
          rfl
        · rw [Registry.setHier_hier, alookup_ainsert, if_neg hx]

theorem patchParent_spec {s t : Registry} {A : Nat} {hA' : Hierarchy}
    (hl : alookup s.hier A = some hA') (h : patchParent s A = some t) :
    ∃ p0 ph ph1, hA'.Parent = some p0 ∧ alookup s.hier p0 = some ph ∧
      ph1 = (if ph.FirstChild = some A then { ph with FirstChild := hA'.Next } else ph) ∧
      (∀ x, x ≠ p0 → alookup t.hier x = alookup s.hier x) ∧
      (if ph1.FirstChild = none ∧ ph1.Parent = none
        then alookup t.hier p0 = none
        else alookup t.hier p0 = some ph1) := by
  simp only [patchParent, hl] at h
  cases hpar : hA'.Parent with
  | none =>
    simp only [hpar] at h
    cases h
  | some p0 =>
    simp only [hpar] at h
    cases h3 : alookup s.hier p0 <;> simp only [h3] at h
    case none => cases h
    case some ph =>
      by_cases hc : (if ph.FirstChild = some A then { ph with FirstChild := hA'.Next }
            else ph).FirstChild = none ∧
          (if ph.FirstChild = some A then { ph with FirstChild := hA'.Next }
            else ph).Parent = none
      · rw [if_pos hc] at h
        cases h
        refine ⟨p0, ph, _, rfl, h3, rfl, ?_, ?_⟩
        · intro x hx
          rw [Registry.removeLtp_hier, Registry.eraseHier_hier, alookup_aerase, if_neg hx,
            Registry.setHier_hier, alookup_ainsert, if_neg hx]
        · rw [if_pos hc, Registry.removeLtp_hier, Registry.eraseHier_hier, alookup_aerase,
            if_pos rfl]
      · rw [if_neg hc] at h
        cases h
        refine ⟨p0, ph, _, rfl, h3, rfl, ?_, ?_⟩
        · intro x hx
          rw [Registry.setHier_hier, alookup_ainsert, if_neg hx]
        · rw [if_neg hc, Registry.setHier_hier, alookup_ainsert, if_pos rfl]

theorem clearLinks_spec {s t : Registry} {A : Nat} (h : clearLinks s A = some t) :
    ∃ hA', alookup s.hier A = some hA' ∧
      alookup t.hier A = some { hA' with Parent := none, Previous := none, Next := none } ∧
      (∀ x, x ≠ A → alookup t.hier x = alookup s.hier x) := by
  simp only [clearLinks] at h
  cases h1 : alookup s.hier A <;> simp only [h1] at h
  case none => cases h
  case some hA' =>
    cases h
    refine ⟨hA', rfl, ?_, ?_⟩
    · rw [Registry.setHier_hier, alookup_ainsert, if_pos rfl]
    · intro x hx
      rw [Registry.setHier_hier, alookup_ainsert, if_neg hx]

theorem nextOf_congr {t u : Registry} {x : Nat}
    (h : alookup t.hier x = alookup u.hier x) : nextOf t x = nextOf u x := by
  simp only [nextOf, h]

theorem firstChildOf_congr {t u : Registry} {x : Nat}
    (h : alookup t.hier x = alookup u.hier x) : firstChildOf t x = firstChildOf u x := by
  simp only [firstChildOf, h]

theorem getParent_congr {t u : Registry} {x : Nat}
    (h : alookup t.hier x = alookup u.hier x) : GetParent t x = GetParent u x := by
  simp only [GetParent, h]

theorem detachPhase_spec {s s1 : Registry} {A : Nat} {hA' : Hierarchy}
    (hl : alookup s.hier A = some hA') (hd : detachPhase s A = some s1) :
    (∃ hfin, alookup s1.hier A = some hfin ∧ hfin.Parent = none ∧ hfin.Previous = none ∧
      hfin.Next = none) ∧
      (∀ x, x ≠ A → hA'.Previous ≠ some x → GetParent s x ≠ none →
        nextOf s1 x = nextOf s x) ∧
      (∀ x, x ≠ A → hA'.Parent ≠ some x → firstChildOf s1 x = firstChildOf s x) ∧
      (∀ x, x ≠ A → GetParent s x ≠ none → GetParent s1 x = GetParent s x) ∧
      (∀ p0, hA'.Parent = some p0 → p0 ≠ A →
        firstChildOf s1 p0 =
          (if firstChildOf s p0 = some A then hA'.Next else firstChildOf s p0) ∧
        (alookup s1.hier p0 = none →
          (if firstChildOf s p0 = some A then hA'.Next else firstChildOf s p0) = none)) := by
  obtain ⟨t1, hpp, hrest⟩ : ∃ t1, patchPrevious s A = some t1 ∧
      (patchNext t1 A).bind (fun s2 =>
        (patchParent s2 A).bind fun s3 => clearLinks s3 A) = some s1 := by
    cases hx : patchPrevious s A with
    | none => simp [detachPhase, hx] at hd
    | some t1 => exact ⟨t1, rfl, by simpa [detachPhase, hx] using hd⟩
  obtain ⟨t2, hpn, hrest2⟩ : ∃ t2, patchNext t1 A = some t2 ∧
      (patchParent t2 A).bind (fun s3 => clearLinks s3 A) = some s1 := by
    cases hx : patchNext t1 A with
    | none => simp [hx] at hrest
    | some t2 => exact ⟨t2, rfl, by simpa [hx] using hrest⟩
  obtain ⟨t3, hppar, hcl⟩ : ∃ t3, patchParent t2 A = some t3 ∧ clearLinks t3 A = some s1 := by
    cases hx : patchParent t2 A with
    | none => simp [hx] at hrest2
    | some t3 => exact ⟨t3, rfl, by simpa [hx] using hrest2⟩
  obtain ⟨P1A, P1other, P1fc, P1gp, P1some⟩ := patchPrevious_spec hl hpp
  obtain ⟨P2A, P2other, P2next, P2fc, P2gp, P2some⟩ := patchNext_spec P1A hpn
  obtain ⟨p0, ph, ph1, hp0, hph, hph1, P3other, P3p0⟩ := patchParent_spec P2A hppar
  obtain ⟨hA3, hA3eq, hA3new, hclother⟩ := clearLinks_spec hcl
  have hph1next : ph1.Next = ph.Next := by
    rw [hph1]
    by_cases hb : ph.FirstChild = some A
    · rw [if_pos hb]
    · rw [if_neg hb]
  have hph1par : ph1.Parent = ph.Parent := by
    rw [hph1]
    by_cases hb : ph.FirstChild = some A
    · rw [if_pos hb]
    · rw [if_neg hb]
  have hph1fc : ph1.FirstChild =
      (if ph.FirstChild = some A then hA'.Next else ph.FirstChild) := by
    rw [hph1]
    by_cases hb : ph.FirstChild = some A
    · rw [if_pos hb, if_pos hb]
    · rw [if_neg hb, if_neg hb]
  have hfc_s : ph.FirstChild = firstChildOf s p0 := by
    have h1 : firstChildOf t2 p0 = ph.FirstChild := by simp [firstChildOf, hph]
    rw [← h1, P2fc, P1fc]
  have hpar_s : ph.Parent = GetParent s p0 := by
    have h1 : GetParent t2 p0 = ph.Parent := by simp [GetParent, hph]
    rw [← h1, P2gp, P1gp]
  refine ⟨⟨_, hA3new, rfl, rfl, rfl⟩, ?_, ?_, ?_, ?_⟩
  · intro x hxA hxpr hxgp
    have e1 : nextOf s1 x = nextOf t3 x := nextOf_congr (hclother x hxA)
    have e4 : nextOf t1 x = nextOf s x := nextOf_congr (P1other x hxpr)
    by_cases hxp0 : x = p0
    · subst hxp0
      have hnocas : ¬(ph1.FirstChild = none ∧ ph1.Parent = none) := by
        intro hcon
        rw [hph1par, hpar_s] at hcon
        exact hxgp hcon.2
      rw [if_neg hnocas] at P3p0
      have e2 : nextOf t3 x = nextOf t2 x := by
        have hv1 : nextOf t3 x = some ph1.Next := by simp [nextOf, P3p0]
        have hv2 : nextOf t2 x = some ph.Next := by simp [nextOf, hph]
        rw [hv1, hv2, hph1next]
      rw [e1, e2, P2next, e4]
    · have e2 : nextOf t3 x = nextOf t2 x := nextOf_congr (P3other x hxp0)
      rw [e1, e2, P2next, e4]
  · intro x hxA hxpar
    have hxp0 : x ≠ p0 := by
      intro he
      exact hxpar (by rw [he, hp0])
    have e1 : firstChildOf s1 x = firstChildOf t3 x := firstChildOf_congr (hclother x hxA)
    have e2 : firstChildOf t3 x = firstChildOf t2 x := firstChildOf_congr (P3other x hxp0)
    rw [e1, e2, P2fc, P1fc]
  · intro x hxA hxgp
    have e1 : GetParent s1 x = GetParent t3 x := getParent_congr (hclother x hxA)
    by_cases hxp0 : x = p0
    · subst hxp0
      have hnocas : ¬(ph1.FirstChild = none ∧ ph1.Parent = none) := by
        intro hcon
        rw [hph1par, hpar_s] at hcon
        exact hxgp hcon.2
      rw [if_neg hnocas] at P3p0
      have e2 : GetParent t3 x = GetParent t2 x := by
        have hv1 : GetParent t3 x = ph1.Parent := by simp [GetParent, P3p0]
        have hv2 : GetParent t2 x = ph.Parent := by simp [GetParent, hph]
        rw [hv1, hv2, hph1par]
      rw [e1, e2, P2gp, P1gp]
    · have e2 : GetParent t3 x = GetParent t2 x := getParent_congr (P3other x hxp0)
      rw [e1, e2, P2gp, P1gp]
  · intro q0 hq0 hq0A
    have hq : q0 = p0 := by
      rw [hq0] at hp0
      exact Option.some.injEq _ _ ▸ (by cases hp0; rfl)
    subst hq
    have e1 : firstChildOf s1 q0 = firstChildOf t3 q0 := firstChildOf_congr (hclother q0 hq0A)
    have e1l : alookup s1.hier q0 = alookup t3.hier q0 := hclother q0 hq0A
    by_cases hcas : ph1.FirstChild = none ∧ ph1.Parent = none
    · rw [if_pos hcas] at P3p0
      constructor
      · rw [e1]
        have : firstChildOf t3 q0 = none := by simp [firstChildOf, P3p0]
        rw [this, ← hfc_s, ← hph1fc]
        exact hcas.1.symm
      · intro _
        rw [← hfc_s, ← hph1fc]
        exact hcas.1
    · rw [if_neg hcas] at P3p0
      constructor
      · rw [e1]
        have : firstChildOf t3 q0 = ph1.FirstChild := by simp [firstChildOf, P3p0]
        rw [this, hph1fc, hfc_s]
      · intro hnone
        rw [e1l, P3p0] at hnone
        cases hnone

theorem attachSplice_spec {s4 s' : Registry} {A B : Nat} {chB hA4v : Hierarchy}
    (hAB : A ≠ B)
    (hB4 : alookup s4.hier B = some chB)
    (hA4 : alookup s4.hier A = some hA4v)
    (hprev : hA4v.Previous = none) (hnext : hA4v.Next = none)
    (h : attachSplice s4 A B = some s') :
    firstChildOf s' B = some A ∧
      (∃ hA2, alookup s'.hier A = some hA2 ∧ hA2.Parent = hA4v.Parent ∧
        hA2.Previous = none ∧ hA2.Next = chB.FirstChild) ∧
      (∀ x, x ≠ A → nextOf s' x = nextOf s4 x) ∧
      (∀ x, x ≠ A → GetParent s' x = GetParent s4 x) := by
  simp only [attachSplice, hB4] at h
  cases hfc : chB.FirstChild with
  | none =>
    simp only [hfc] at h
    cases h
    refine ⟨?_, ⟨hA4v, ?_, rfl, hprev, ?_⟩, ?_, ?_⟩
    · rw [firstChildOf_setHier, if_pos rfl]
    · rw [Registry.setHier_hier, alookup_ainsert, if_neg hAB]
      exact hA4
    · rw [hnext]
    · intro x hx
      rw [nextOf_setHier]
      by_cases hxB : x = B
      · subst hxB
        simp [nextOf, hB4]
      · rw [if_neg hxB]
    · intro x hx
      rw [getParent_setHier]
      by_cases hxB : x = B
      · subst hxB
        simp [GetParent, hB4]
      · rw [if_neg hxB]
  | some fc =>
    simp only [hfc] at h
    cases h5 : alookup s4.hier fc <;> simp only [h5] at h
    case none => cases h
    case some nh =>
      cases h6 : alookup (s4.setHier fc { nh with Previous := some A }).hier A <;>
        simp only [h6] at h
      case none => cases h
      case some h2v =>
        cases h7 : alookup ((s4.setHier fc { nh with Previous := some A }).setHier A
            { h2v with Next := some fc, Previous := none }).hier B <;> simp only [h7] at h
        case none => cases h
        case some ch2 =>
          cases h
          have hh2vpar : h2v.Parent = hA4v.Parent := by
            by_cases hfcA : fc = A
            · subst hfcA
              rw [hA4] at h5
              cases h5
              rw [Registry.setHier_hier, alookup_ainsert, if_pos rfl] at h6
              cases h6
              rfl
            · have hAfc : ¬A = fc := fun he => hfcA he.symm
              rw [Registry.setHier_hier, alookup_ainsert, if_neg hAfc, hA4] at h6
              cases h6
              rfl
          have hch2next : ch2.Next = chB.Next := by
            have hBA : ¬B = A := fun he => hAB he.symm
            rw [Registry.setHier_hier, alookup_ainsert, if_neg hBA] at h7
            by_cases hfcB : fc = B
            · subst hfcB
              rw [hB4] at h5
              cases h5
              rw [Registry.setHier_hier, alookup_ainsert, if_pos rfl] at h7
              cases h7
              rfl
            · have hBfc : ¬B = fc := fun he => hfcB he.symm
              rw [Registry.setHier_hier, alookup_ainsert, if_neg hBfc, hB4] at h7
              cases h7
              rfl
          have hch2par : ch2.Parent = chB.Parent := by
            have hBA : ¬B = A := fun he => hAB he.symm
            rw [Registry.setHier_hier, alookup_ainsert, if_neg hBA] at h7
            by_cases hfcB : fc = B
            · subst hfcB
              rw [hB4] at h5
              cases h5
              rw [Registry.setHier_hier, alookup_ainsert, if_pos rfl] at h7
              cases h7
              rfl
            · have hBfc : ¬B = fc := fun he => hfcB he.symm
              rw [Registry.setHier_hier, alookup_ainsert, if_neg hBfc, hB4] at h7
              cases h7
              rfl
          refine ⟨?_, ⟨{ h2v with Next := some fc, Previous := none }, ?_, hh2vpar, rfl, ?_⟩,
            ?_, ?_⟩
          · rw [firstChildOf_setHier, if_pos rfl]
          · rw [Registry.setHier_hier, alookup_ainsert, if_neg hAB,
              Registry.setHier_hier, alookup_ainsert, if_pos rfl]
          · rfl
          · intro x hx
            rw [nextOf_setHier]
            by_cases hxB : x = B
            · subst hxB
              rw [if_pos rfl]
              simp [nextOf, hB4, hch2next]
            · rw [if_neg hxB, nextOf_setHier, if_neg hx, nextOf_setHier]
              by_cases hxfc : x = fc
              · subst hxfc
                rw [if_pos rfl]
                simp [nextOf, h5]
              · rw [if_neg hxfc]
          · intro x hx
            rw [getParent_setHier]
            by_cases hxB : x = B
            · subst hxB
              rw [if_pos rfl]
              simp [GetParent, hB4, hch2par]
            · rw [if_neg hxB, getParent_setHier, if_neg hx, getParent_setHier]
              by_cases hxfc : x = fc
              · subst hxfc
                rw [if_pos rfl]
                simp [GetParent, h5]
              · rw [if_neg hxfc]

theorem nextOf_addLtp (t : Registry) (n x : Nat) : nextOf (t.addLtp n) x = nextOf t x := rfl

theorem firstChildOf_addLtp (t : Registry) (n x : Nat) :
    firstChildOf (t.addLtp n) x = firstChildOf t x := rfl

theorem getParent_addLtp (t : Registry) (n x : Nat) :
    GetParent (t.addLtp n) x = GetParent t x := rfl

theorem attachCore_spec {s2 s' : Registry} {A B : Nat} {hA2v : Hierarchy}
    (hAB : A ≠ B)
    (hA2 : alookup s2.hier A = some hA2v)
    (hprev : hA2v.Previous = none) (hnext : hA2v.Next = none)
    (h : attachCore s2 A B = some s') :
    firstChildOf s' B = some A ∧
      (∃ hA3, alookup s'.hier A = some hA3 ∧ hA3.Parent = some B ∧
        hA3.Previous = none ∧ hA3.Next = firstChildOf s2 B) ∧
      (∀ x, x ≠ A → x ≠ B → nextOf s' x = nextOf s2 x) ∧
      (∀ x, x ≠ A → x ≠ B → GetParent s' x = GetParent s2 x) := by
  simp only [attachCore, hA2] at h
  have hBA : ¬B = A := fun he => hAB he.symm
  cases hc : alookup (s2.setHier A { hA2v with Parent := some B }).hier B <;>
    simp only [hc] at h
  case none =>
    have hB2 : alookup s2.hier B = none := by
      rw [Registry.setHier_hier, alookup_ainsert, if_neg hBA] at hc
      exact hc
    have hB4 : alookup ((s2.setHier A { hA2v with Parent := some B }).setHier B
        ({} : Hierarchy)).hier B = some {} := by
      rw [Registry.setHier_hier, alookup_ainsert, if_pos rfl]
    have hA4 : alookup ((s2.setHier A { hA2v with Parent := some B }).setHier B
        ({} : Hierarchy)).hier A = some { hA2v with Parent := some B } := by
      rw [Registry.setHier_hier, alookup_ainsert, if_neg hAB, Registry.setHier_hier,
        alookup_ainsert, if_pos rfl]
    obtain ⟨c1, ⟨hA3, hl3, hp3, hpr3, hn3⟩, c3, c4⟩ :=
      attachSplice_spec hAB hB4 hA4 hprev hnext h
    refine ⟨c1, ⟨hA3, hl3, hp3, hpr3, ?_⟩, ?_, ?_⟩
    · rw [hn3]
      simp [firstChildOf, hB2]
    · intro x hxA hxB
      rw [c3 x hxA, nextOf_setHier, if_neg hxB, nextOf_setHier, if_neg hxA]
    · intro x hxA hxB
      rw [c4 x hxA, getParent_setHier, if_neg hxB, getParent_setHier, if_neg hxA]
  case some chB0 =>
    have hB2 : alookup s2.hier B = some chB0 := by
      rw [Registry.setHier_hier, alookup_ainsert, if_neg hBA] at hc
      exact hc
    have hA4 : alookup (s2.setHier A { hA2v with Parent := some B }).hier A =
        some { hA2v with Parent := some B } := by
      rw [Registry.setHier_hier, alookup_ainsert, if_pos rfl]
    obtain ⟨c1, ⟨hA3, hl3, hp3, hpr3, hn3⟩, c3, c4⟩ :=
      attachSplice_spec hAB hc hA4 hprev hnext h
    refine ⟨c1, ⟨hA3, hl3, hp3, hpr3, ?_⟩, ?_, ?_⟩
    · rw [hn3]
      simp [firstChildOf, hB2]
    · intro x hxA hxB
      rw [c3 x hxA, nextOf_setHier, if_neg hxA]
    · intro x hxA hxB
      rw [c4 x hxA, getParent_setHier, if_neg hxA]

theorem attachPhase_spec {s s' : Registry} {A B : Nat}
    (hAB : A ≠ B)
    (hA0 : alookup s.hier A = none ∨
      ∃ h0, alookup s.hier A = some h0 ∧ h0.Previous = none ∧ h0.Next = none)
    (h : attachPhase s A B = some s') :
    firstChildOf s' B = some A ∧
      (∃ hA3, alookup s'.hier A = some hA3 ∧ hA3.Parent = some B ∧
        hA3.Previous = none ∧ hA3.Next = firstChildOf s B) ∧
      (∀ x, x ≠ A → x ≠ B → nextOf s' x = nextOf s x) ∧
      (∀ x, x ≠ A → x ≠ B → GetParent s' x = GetParent s x) := by
  simp only [attachPhase] at h
  have hBA : ¬B = A := fun he => hAB he.symm
  rcases hA0 with hnone | ⟨h0, hsome, hpr0, hnx0⟩
  · simp only [hnone] at h
    have hA2 : alookup ((s.setHier A ({} : Hierarchy)).addLtp A).hier A =
        some ({} : Hierarchy) := by
      rw [Registry.addLtp_hier, Registry.setHier_hier, alookup_ainsert, if_pos rfl]
    obtain ⟨c1, ⟨hA3, a1, a2, a3, a4⟩, c3, c4⟩ := attachCore_spec hAB hA2 rfl rfl h
    refine ⟨c1, ⟨hA3, a1, a2, a3, ?_⟩, ?_, ?_⟩
    · rw [a4, firstChildOf_addLtp, firstChildOf_setHier, if_neg hBA]
    · intro x hxA hxB
      rw [c3 x hxA hxB, nextOf_addLtp, nextOf_setHier, if_neg hxA]
    · intro x hxA hxB
      rw [c4 x hxA hxB, getParent_addLtp, getParent_setHier, if_neg hxA]
  · simp only [hsome] at h
    have hA2 : alookup (s.addLtp A).hier A = some h0 := by
      rw [Registry.addLtp_hier]
      exact hsome
    obtain ⟨c1, ⟨hA3, a1, a2, a3, a4⟩, c3, c4⟩ := attachCore_spec hAB hA2 hpr0 hnx0 h
    refine ⟨c1, ⟨hA3, a1, a2, a3, ?_⟩, ?_, ?_⟩
    · rw [a4, firstChildOf_addLtp]
    · intro x hxA hxB
      rw [c3 x hxA hxB, nextOf_addLtp]
    · intro x hxA hxB
      rw [c4 x hxA hxB, getParent_addLtp]

theorem chainFrom_congr {s t : Registry} :
    ∀ (f : Nat) (c : Ent) (l : List Nat), chainFrom s c f = some l →
      (∀ e ∈ l, nextOf t e = nextOf s e) → chainFrom t c f = some l := by
  intro f
  induction f with
  | zero =>
    intro c l h hag
    cases c with
    | none => exact h
    | some e => cases h
  | succ n ih =>
    intro c l h hag
    cases c with
    | none => exact h
    | some e =>
      simp only [chainFrom] at h
      cases hle : alookup s.hier e with
      | none =>
        simp only [hle] at h
        cases h
      | some he =>
        simp only [hle] at h
        cases hch : chainFrom s he.Next n with
        | none =>
          rw [hch] at h
          cases h
        | some l1 =>
          rw [hch] at h
          cases h
          have hee : nextOf t e = nextOf s e := hag e (by simp)
          have hex : ∃ hte, alookup t.hier e = some hte ∧ hte.Next = he.Next := by
            simp only [nextOf, hle] at hee
            cases hlt : alookup t.hier e with
            | none =>
              rw [hlt] at hee
              cases hee
            | some hte =>
              rw [hlt] at hee
              simp only [Option.map_some'] at hee
              exact ⟨hte, rfl, Option.some.inj hee⟩
          obtain ⟨hte, hlt, hnx⟩ := hex
          have hch2 : chainFrom t hte.Next n = some l1 := by
            rw [hnx]
            exact ih he.Next l1 hch (fun x hx => hag x (by simp [hx]))
          simp only [chainFrom, hlt, hch2, Option.map_some']

theorem childList_chainFrom {s : Registry} {B : Nat} {f : Nat} {l : List Nat}
    (h : childList s B f = some l) : chainFrom s (firstChildOf s B) f = some l := by
  unfold childList at h
  cases hB : alookup s.hier B with
  | none =>
    rw [hB] at h
    cases h
    simp [firstChildOf, hB, chainFrom]
  | some hb =>
    rw [hB] at h
    have : firstChildOf s B = hb.FirstChild := by simp [firstChildOf, hB]
    rw [this]
    exact h

theorem chainFrom_eq_nil {s : Registry} {c : Ent} {f : Nat}
    (h : chainFrom s c f = some []) : c = none := by
  cases c with
  | none => rfl
  | some e =>
    cases f with
    | zero => cases h
    | succ n =>
      simp only [chainFrom] at h
      cases hle : alookup s.hier e with
      | none =>
        simp only [hle] at h
        cases h
      | some he =>
        simp only [hle] at h
        cases hch : chainFrom s he.Next n with
        | none =>
          rw [hch] at h
          cases h
        | some l1 =>
          rw [hch] at h
          simp at h

theorem clearingPhase_other {s1 s' : Registry} {A : Nat} (h : clearingPhase s1 A = some s') :
    ∀ x, x ≠ A → alookup s'.hier x = alookup s1.hier x := by
  simp only [clearingPhase] at h
  cases h1 : alookup (s1.removeLtp A).hier A <;> simp only [h1] at h
  case none => cases h
  case some hh =>
    by_cases hfc : hh.FirstChild = none
    · rw [if_pos hfc] at h
      cases h
      intro x hx
      rw [Registry.eraseHier_hier, alookup_aerase, if_neg hx, Registry.removeLtp_hier]
    · rw [if_neg hfc] at h
      cases h
      intro x hx
      rw [Registry.removeLtp_hier]

theorem clearingPhase_getParent_none {s1 s' : Registry} {A : Nat}
    (hh1 : ∃ hh, alookup s1.hier A = some hh ∧ hh.Parent = none)
    (h : clearingPhase s1 A = some s') : GetParent s' A = none := by
  rcases clearingPhase_second hh1 h with hn | ⟨hh, hl, hp⟩
  · simp [GetParent, hn]
  · simp [GetParent, hl, hp]

theorem setParent_head_core {s sPre s' : Registry} {A B : Nat} {l : List Nat} {f2 : Nat}
    (hAB : A ≠ B)
    (hlist : childList s B f2 = some l)
    (hAl : A ∉ l) (hBl : B ∉ l)
    (hmem : ∀ e ∈ l, GetParent s e = some B)
    (hfcB : firstChildOf sPre B = firstChildOf s B)
    (hnexts : ∀ e ∈ l, nextOf sPre e = nextOf s e)
    (hgps : ∀ e ∈ l, GetParent sPre e = GetParent s e)
    (c1 : firstChildOf s' B = some A)
    (hA3 : Hierarchy) (a1 : alookup s'.hier A = some hA3) (a2 : hA3.Parent = some B)
    (a3 : hA3.Previous = none) (a4 : hA3.Next = firstChildOf sPre B)
    (c3 : ∀ x, x ≠ A → x ≠ B → nextOf s' x = nextOf sPre x)
    (c4 : ∀ x, x ≠ A → x ≠ B → GetParent s' x = GetParent sPre x) :
    GetParent s' A = some B ∧
      firstChildOf s' B = some A ∧
      (∃ hA', alookup s'.hier A = some hA' ∧ hA'.Previous = none ∧
        hA'.Next = firstChildOf s B) ∧
      childList s' B (f2 + 1) = some (A :: l) ∧
      (A :: l).count A = 1 ∧
      (∀ s'' f3, SetParent s' A none f3 = some s'' →
        GetParent s'' A = none ∧ childList s'' B f2 = some l) := by
  have hchain_s : chainFrom s (firstChildOf s B) f2 = some l := childList_chainFrom hlist
  have hag1 : ∀ e ∈ l, nextOf s' e = nextOf s e := by
    intro e he
    have heA : e ≠ A := fun hh => hAl (hh ▸ he)
    have heB : e ≠ B := fun hh => hBl (hh ▸ he)
    rw [c3 e heA heB]
    exact hnexts e he
  have hchain' : chainFrom s' (firstChildOf s B) f2 = some l :=
    chainFrom_congr f2 _ l hchain_s hag1
  have hB' : ∃ hb', alookup s'.hier B = some hb' ∧ hb'.FirstChild = some A := by
    cases hb : alookup s'.hier B with
    | none =>
      rw [firstChildOf, hb] at c1
      cases c1
    | some hb' =>
      refine ⟨hb', rfl, ?_⟩
      rw [firstChildOf, hb] at c1
      exact c1
  obtain ⟨hb', hbl, hbfc⟩ := hB'
  refine ⟨by simp [GetParent, a1, a2], c1, ⟨hA3, a1, a3, a4.trans hfcB⟩, ?_, ?_, ?_⟩
  · simp only [childList, hbl]
    rw [hbfc]
    simp only [chainFrom, a1]
    rw [a4, hfcB, hchain']
    rfl
  · rw [List.count_cons_self, List.count_eq_zero.mpr hAl]
  · intro s'' f3 hclear
    have hep2 : ¬(some A = (none : Ent)) := by simp
    simp only [SetParent, if_neg hep2, cycleCheck, a1] at hclear
    have hparne : ¬(hA3.Parent = (none : Ent)) := by
      rw [a2]
      simp
    rw [if_neg hparne] at hclear
    cases hd2 : detachPhase s' A with
    | none =>
      simp only [hd2] at hclear
      cases hclear
    | some t2 =>
      simp only [hd2] at hclear
      obtain ⟨E1, E2, E3, E4, E5⟩ := detachPhase_spec a1 hd2
      obtain ⟨Efc, Enone⟩ := E5 B a2 (Ne.symm hAB)
      have hcond : (if firstChildOf s' B = some A then hA3.Next else firstChildOf s' B) =
          hA3.Next := by
        rw [c1]
        simp
      rw [hcond] at Efc Enone
      have hother := clearingPhase_other hclear
      have hBA : B ≠ A := Ne.symm hAB
      have hlookB : alookup s''.hier B = alookup t2.hier B := hother B hBA
      have hag2 : ∀ e ∈ l, nextOf s'' e = nextOf s e := by
        intro e he
        have heA : e ≠ A := fun hh => hAl (hh ▸ he)
        have heB : e ≠ B := fun hh => hBl (hh ▸ he)
        have hgp' : GetParent s' e = some B := by
          rw [c4 e heA heB, hgps e he]
          exact hmem e he
        have h1 : nextOf s'' e = nextOf t2 e := nextOf_congr (hother e heA)
        have h2 : nextOf t2 e = nextOf s' e := by
          refine E2 e heA ?_ ?_
          · rw [a3]
            simp
          · rw [hgp']
            simp
        rw [h1, h2]
        exact hag1 e he
      obtain ⟨hfin, F1, F2, F3, F4⟩ := E1
      refine ⟨clearingPhase_getParent_none ⟨hfin, F1, F2⟩ hclear, ?_⟩
      cases hb2 : alookup t2.hier B with
      | none =>
        have hfcnone : firstChildOf s B = none := by
          rw [← hfcB, ← a4]
          exact Enone hb2
        have hlnil : l = [] := by
          rw [hfcnone] at hchain_s
          simp only [chainFrom] at hchain_s
          exact (Option.some.inj hchain_s).symm
        rw [hlnil]
        simp only [childList]
        rw [hlookB, hb2]
      | some hb2v =>
        have hfc'' : hb2v.FirstChild = firstChildOf s B := by
          have h1 : firstChildOf t2 B = hb2v.FirstChild := by
            simp [firstChildOf, hb2]
          rw [← h1, Efc, a4, hfcB]
        have hch'' : chainFrom s'' (firstChildOf s B) f2 = some l :=
          chainFrom_congr f2 _ l hchain_s hag2
        simp only [childList]
        rw [hlookB, hb2]
        show chainFrom s'' hb2v.FirstChild f2 = some l
        rw [hfc'']
        exact hch''

/-- Counterexample to the unconditional head-insertion reading of C3: in
`regTailChild` entity 0 is already a child of 1 but sits behind its sibling 2.
`SetParent(0, 1)` then takes the early `hierarchy->Parent == parent` return
and is a no-op, so 0 is NOT moved to the head of 1's child list — the
head-position part of the claim needs the proviso that the entity is not
already a child of the new parent. -/
theorem setParent_already_child_not_head :
    SetParent regTailChild 0 (some 1) 10 = some regTailChild ∧
      GetParent regTailChild 0 = some 1 ∧
      firstChildOf regTailChild 1 = some 2 ∧
      childList regTailChild 1 10 = some [2, 0] :=
  ⟨rfl, rfl, rfl, rfl⟩

/-- C3 (amended: the head-insertion part needs `A` not already a child of
`B`): if `SetParent(A, B)` completes on a registry where `A` is not already a
child of `B`, the cycle guard reports no cycle, and `B`'s child list is the
duplicate-free chain `l` (not containing `A` or `B`, each member a child of
`B`, and `A`'s old `Previous` sibling — if any — outside it), then afterwards
`GetParent(A) = B`, `A` is the new `FirstChild` of `B` with null `Previous`
and `Next` equal to the old `FirstChild` (most-recently-attached-first
order), `B`'s child list is `A :: l`, which contains `A` exactly once; and
any subsequent completed `ClearParent(A)` (`SetParent(A, null)`) restores
`GetParent(A) = null` and `B`'s child list to `l`, without `A`. -/
theorem setParent_attach_head_and_clear (s s' : Registry) (A B : Nat) (l : List Nat)
    (fuel f2 : Nat)
    (hAB : A ≠ B)
    (hnot : GetParent s A ≠ some B)
    (hcyc : cycleCheck s A (some B) fuel = some false)
    (hsucc : SetParent s A (some B) fuel = some s')
    (hlist : childList s B f2 = some l)
    (hAl : A ∉ l) (hBl : B ∉ l)
    (hmem : ∀ e ∈ l, GetParent s e = some B)
    (hsib : ∀ hA0, alookup s.hier A = some hA0 → ∀ pr, hA0.Previous = some pr → pr ∉ l) :
    GetParent s' A = some B ∧
      firstChildOf s' B = some A ∧
      (∃ hA', alookup s'.hier A = some hA' ∧ hA'.Previous = none ∧
        hA'.Next = firstChildOf s B) ∧
      childList s' B (f2 + 1) = some (A :: l) ∧
      (A :: l).count A = 1 ∧
      (∀ s'' f3, SetParent s' A none f3 = some s'' →
        GetParent s'' A = none ∧ childList s'' B f2 = some l) := by
  have hep : ¬(some A = some B) := by simpa using hAB
  simp only [SetParent, if_neg hep, hcyc] at hsucc
  cases hl0 : alookup s.hier A with
  | none =>
    simp only [hl0] at hsucc
    obtain ⟨c1, ⟨hA3, a1, a2, a3, a4⟩, c3, c4⟩ := attachPhase_spec hAB (Or.inl hl0) hsucc
    exact setParent_head_core hAB hlist hAl hBl hmem rfl (fun e _ => rfl) (fun e _ => rfl)
      c1 hA3 a1 a2 a3 a4 c3 c4
  | some hA0v =>
    simp only [hl0] at hsucc
    have hparne : ¬(hA0v.Parent = some B) := by
      intro he
      exact hnot (by simp [GetParent, hl0, he])
    rw [if_neg hparne] at hsucc
    cases hd : detachPhase s A with
    | none =>
      simp only [hd] at hsucc
      cases hsucc
    | some s1 =>
      simp only [hd] at hsucc
      obtain ⟨D1, D2, D3, D4, D5⟩ := detachPhase_spec hl0 hd
      obtain ⟨hfin, G1, G2, G3, G4⟩ := D1
      obtain ⟨c1, ⟨hA3, a1, a2, a3, a4⟩, c3, c4⟩ :=
        attachPhase_spec hAB (Or.inr ⟨hfin, G1, G3, G4⟩) hsucc
      have hfcB : firstChildOf s1 B = firstChildOf s B := D3 B (Ne.symm hAB) hparne
      have hnexts : ∀ e ∈ l, nextOf s1 e = nextOf s e := by
        intro e he
        refine D2 e (fun hh => hAl (hh ▸ he)) ?_ ?_
        · intro hh
          exact hsib hA0v hl0 e hh he
        · rw [hmem e he]
          simp
      have hgps : ∀ e ∈ l, GetParent s1 e = GetParent s e := by
        intro e he
        refine D4 e (fun hh => hAl (hh ▸ he)) ?_
        rw [hmem e he]
        simp
      exact setParent_head_core hAB hlist hAl hBl hmem hfcB hnexts hgps
        c1 hA3 a1 a2 a3 a4 c3 c4

/-- Witness for C3 at a concrete input: attaching the fresh entity 0 to the
root 1 (old child list `[2]`) in `regW` yields `regW'` with 0 at the head. -/
theorem setParent_attach_head_and_clear_witness :
    (0 : Nat) ≠ 1 ∧
      GetParent regW 0 ≠ some 1 ∧
      cycleCheck regW 0 (some 1) 10 = some false ∧
      SetParent regW 0 (some 1) 10 = some regW' ∧
      childList regW 1 2 = some [2] ∧
      (GetParent regW' 0 = some 1 ∧
        firstChildOf regW' 1 = some 0 ∧
        (∃ hA', alookup regW'.hier 0 = some hA' ∧ hA'.Previous = none ∧
          hA'.Next = firstChildOf regW 1) ∧
        childList regW' 1 (2 + 1) = some (0 :: [2]) ∧
        ((0 : Nat) :: [2]).count 0 = 1 ∧
        (∀ s'' f3, SetParent regW' 0 none f3 = some s'' →
          GetParent s'' 0 = none ∧ childList s'' 1 2 = some [2])) :=
  ⟨by decide, by decide, rfl, rfl, rfl,
    setParent_attach_head_and_clear regW regW' 0 1 [2] 10 2 (by decide) (by decide) rfl rfl
      rfl (by decide) (by decide) (by decide) (fun hA0 h => nomatch h)⟩
